import Mathlib

/-!
Shallow embedding of the scheduling core of `src/scheduler.py`
(class ProductionScheduler) and proofs about the claims of the
specification.

Modelling conventions, used consistently below:

* Wall-clock times are integers counting minutes since Monday
  2025-08-18 00:00 (the Monday of the week containing the engine's
  start datum `datetime(2025, 8, 22, 6, 0)`).  Every time the program
  manipulates is a whole number of minutes, so this coordinate change
  is faithful; `d % 7` is then exactly Python's `date.weekday()`
  (Monday = 0), and Lean's `Int` division/modulo agree with Python's
  floor division and modulo for positive divisors.
* Python `dict`s are association lists with unique keys, in insertion
  order; `alookup` is `d.get(k)`, `aset` is `d[k] = v`.
* Python `None`-able values are `Option`s; a `dict.get` with a default
  becomes `Option.getD`.
* Priorities are exact rationals (`Rat`).  The source computes them
  with Python floats; all priority arithmetic appearing in the source
  (integer combinations, `duration / 10`, the retry penalty `+ 0.1`)
  is order-isomorphic to the rational computation at the magnitudes
  involved, and the claims below never depend on float rounding.
* The memoisation caches (`_critical_path_cache`) are replaced by
  fuel-bounded recursion; on the acyclic graphs the engine accepts the
  values agree, and the fuel supplied is always larger than any chain
  the data can produce.
-/

/- Times are plain `Int` minutes since Monday 2025-08-18 00:00
(an abbreviation would hide the arithmetic from `omega`). -/

/-- Day number of a time (floor division, as `datetime.date()`). -/
def dayOf (t : Int) : Int := t / 1440

/-- Python `date.weekday()`: 0 = Monday, since day 0 is a Monday. -/
def weekday (d : Int) : Int := d % 7

/-- Python `dict.get(k)` on an association list (first binding wins). -/
def alookup {α : Type} : List (String × α) → String → Option α
  | [], _ => none
  | (k2, v) :: rest, k => if k2 == k then some v else alookup rest k

/-- Python `d[k] = v` on an association list: overwrite in place, or
append a new binding (dicts keep insertion order). -/
def aset {α : Type} : List (String × α) → String → α → List (String × α)
  | [], k, v => [(k, v)]
  | (k2, v2) :: rest, k, v =>
      if k2 == k then (k2, v) :: rest else (k2, v2) :: aset rest k v

/-- Exact rational numbers as integer fractions with positive
denominator, used for the engine's priority values.  The source
computes priorities with Python floats; every priority expression in
the source (integer combinations, a single division by 10, the retry
penalty `+ 0.1`) is represented exactly here, with the same ordering.
Unlike Mathlib's `Rat`, these fractions carry no normalisation proofs,
so the kernel can evaluate scheduler runs on concrete data. -/
structure PRat where
  num : Int
  den : Int
deriving DecidableEq, Repr

instance (n : Nat) : OfNat PRat n := ⟨⟨(n : Int), 1⟩⟩

instance : Neg PRat := ⟨fun a => ⟨-a.num, a.den⟩⟩

instance : Add PRat := ⟨fun a b => ⟨a.num * b.den + b.num * a.den, a.den * b.den⟩⟩

instance : Sub PRat := ⟨fun a b => ⟨a.num * b.den - b.num * a.den, a.den * b.den⟩⟩

instance : Mul PRat := ⟨fun a b => ⟨a.num * b.num, a.den * b.den⟩⟩

instance : Div PRat :=
  ⟨fun a b => if b.num < 0 then ⟨-(a.num * b.den), a.den * -b.num⟩ else ⟨a.num * b.den, a.den * b.num⟩⟩

instance : IntCast PRat := ⟨fun i => ⟨i, 1⟩⟩

instance : NatCast PRat := ⟨fun n => ⟨(n : Int), 1⟩⟩

/-- Comparison of fractions with positive denominators. -/
instance : LT PRat := ⟨fun a b => a.num * b.den < b.num * a.den⟩

instance (a b : PRat) : Decidable (a < b) :=
  inferInstanceAs (Decidable (a.num * b.den < b.num * a.den))

/-- Python `==` on priority values: equality of the represented
rationals. -/
instance : BEq PRat := ⟨fun a b => a.num * b.den == b.num * a.den⟩

/-- The rational a fraction represents (for stating theorems). -/
def PRat.val (a : PRat) : Rat := (a.num : Rat) / (a.den : Rat)

/-- The prefix of a character list up to (excluding) the first
occurrence of `sep`: Python `x.split(sep)[0]`.  Structural, so the
kernel can evaluate it (core `String.splitOn` is iterator-based). -/
def takeUntilSub (sep : List Char) : List Char → List Char
  | [] => []
  | c :: cs => if sep.isPrefixOf (c :: cs) then [] else c :: takeUntilSub sep cs

/-- Python `sub in x` on character lists. -/
def containsSub (sep : List Char) : List Char → Bool
  | [] => sep.isEmpty
  | c :: cs => sep.isPrefixOf (c :: cs) || containsSub sep cs

/-- Python `x.split(sep)[0]`. -/
def pySplitFirst (sep x : String) : String := String.mk (takeUntilSub sep.toList x.toList)

/-- Python `sub in x`. -/
def pyContains (sub x : String) : Bool := containsSub sub.toList x.toList

/-- Python `x.strip()`: drop whitespace from both ends. -/
def pyStrip (x : String) : String :=
  String.mk (((x.toList.dropWhile Char.isWhitespace).reverse.dropWhile Char.isWhitespace).reverse)

/-- A parsed shift window entry of `self.shift_hours` (the source keeps
the `HH:MM` strings and parses them with `_parse_shift_time`; we store
the parsed hours and minutes directly). -/
structure ShiftInfo where
  startHour : Nat
  startMin : Nat
  endHour : Nat
  endMin : Nat
deriving DecidableEq, Repr

/-- A task instance record of `self.tasks` (the fields `schedule_tasks`
and `calculate_task_priority` read). -/
structure TaskInfo where
  duration : Nat
  mechanics_required : Nat
  is_quality : Bool
  is_customer : Bool
  task_type : String
  product : Option String
  team : String
  team_skill : Option String
  skill : Option String
deriving DecidableEq, Repr

/-- A resolved constraint of the cached `build_dynamic_dependencies()`
list: keys `First`, `Second`, `Relationship`. -/
structure Constraint where
  first : String
  second : String
  relationship : String
deriving DecidableEq, Repr

/-- A schedule record, as written into `self.task_schedule` by
`schedule_tasks` (scheduler.py lines 1834-1848). -/
structure SchedRecord where
  start_time : Int
  end_time : Int
  team : String
  team_skill : String
  skill : Option String
  product : String
  duration : Nat
  mechanics_required : Nat
  is_quality : Bool
  is_customer : Bool
  task_type : String
  shift : String
  original_task_id : Option String
deriving DecidableEq, Repr

/-- The static data of a `ProductionScheduler` as far as the scheduling
engine reads it.  `constraints` is the resolved dependency list (the
content of `_dynamic_constraints_cache` during a run), `holidays` maps
a product line to its holiday day numbers, `now` is the wall-clock
instant `datetime.now()` used by `calculate_task_priority`, and
`late_part_delay_minutes` is `late_part_delay_days` expressed in
minutes. -/
structure Scheduler where
  tasks : List (String × TaskInfo)
  constraints : List Constraint
  team_capacity : List (String × Nat)
  quality_team_capacity : List (String × Nat)
  customer_team_capacity : List (String × Nat)
  team_shifts : List (String × List String)
  quality_team_shifts : List (String × List String)
  customer_team_shifts : List (String × List String)
  shift_hours : List (String × ShiftInfo)
  holidays : List (String × List Int)
  delivery_dates : List (String × Int)
  late_part_tasks : List String
  rework_tasks : List String
  on_dock_dates : List (String × Int)
  late_part_delay_minutes : Int
  quality_inspections : List (String × Option String)
  instance_to_original : List (String × String)
  now : Int
deriving Repr

/-- `datetime(2025, 8, 22, 6, 0)`, the start datum of `schedule_tasks`
(line 1580): day 4 (Friday) at 06:00. -/
def start_date : Int := 4 * 1440 + 360

/-- First day of year 2031 in our day numbering: 2025-08-18 .. 2025-12-31
is 135 days, then 2026..2030 contribute 365+365+366+365+365 days. -/
def farFutureCutoff : Int := 1962 * 1440

/-- `is_working_day` (lines 2623-2639): weekends are non-working; a
missing or falsy product line, or one without holidays, is working;
otherwise the date must avoid the product's holiday list. -/
def is_working_day (s : Scheduler) (check_date : Int) (product_line : Option String) : Bool :=
  if 5 ≤ weekday check_date then false
  else
    match product_line with
    | none => true
    | some pl =>
      if pl == "" then true
      else
        match alookup s.holidays pl with
        | none => true
        | some hs => !(hs.contains check_date)

/-- The 15-minute round-up of lines 2772-2779: look at the minute of
the hour and bump it to the next quarter, carrying into the hour. -/
def roundUpQuarter (t : Int) : Int :=
  let minutes := t % 60
  if minutes % 15 != 0 then
    let rounded := (minutes / 15 + 1) * 15
    if 60 ≤ rounded then (t - minutes) + 60 else (t - minutes) + rounded
  else t

/-- Shift boundaries of lines 2741-2763 for a shift on `check_date`:
a `3rd` shift runs 23:00 to 06:00 next day, with the special case that
at 00:00-06:00 on day 0 of the search the previous day's 3rd shift is
still active; other shifts use their parsed `shift_hours` window.
Returns `none` when the shift name is not in `shift_hours`. -/
def shiftWindow (s : Scheduler) (current_time : Int) (days_ahead : Nat)
    (check_date : Int) (shift : String) : Option (Int × Int) :=
  match alookup s.shift_hours shift with
  | none => none
  | some info =>
    if shift == "3rd" then
      if days_ahead == 0 && current_time % 1440 < 360 then
        some ((check_date - 1) * 1440 + 23 * 60, check_date * 1440 + 6 * 60)
      else
        some (check_date * 1440 + 23 * 60, (check_date + 1) * 1440 + 6 * 60)
    else
      some (check_date * 1440 + ((info.startHour : Int) * 60 + info.startMin),
            check_date * 1440 + ((info.endHour : Int) * 60 + info.endMin))

/-- One record's contribution in the conflict loop of lines 2787-2805:
add the record's `mechanics_required` when it sits on the probed team
and its interval intersects the candidate window.  Every record written
by the engine carries a `team_skill`, so
`schedule.get('team_skill', schedule.get('team'))` is the record's
`team_skill`. -/
def conflictStep (team : String) (is_quality is_customer : Bool) (winStart winEnd : Int)
    (conflicts : Nat) (kr : String × SchedRecord) : Nat :=
  let r := kr.2
  let scheduled_team := r.team_skill
  if is_customer then
    if scheduled_team == team && r.start_time < winEnd && winStart < r.end_time then
      conflicts + r.mechanics_required
    else conflicts
  else
    if (scheduled_team == team || (!is_quality && r.team == team))
        && r.start_time < winEnd && winStart < r.end_time then
      conflicts + r.mechanics_required
    else conflicts

/-- The accumulated conflict count over the whole schedule dict. -/
def overlapConflicts (sched : List (String × SchedRecord)) (team : String)
    (is_quality is_customer : Bool) (winStart winEnd : Int) : Nat :=
  sched.foldl (conflictStep team is_quality is_customer winStart winEnd) 0

/-- The capacity lookup of lines 2716-2723. -/
def capacityForTeam (s : Scheduler) (team : String) (is_quality is_customer : Bool) : Nat :=
  if is_customer then (alookup s.customer_team_capacity team).getD 0
  else if is_quality then (alookup s.quality_team_capacity team).getD 0
  else (alookup s.team_capacity team).getD 0

/-- The shift-list lookup of lines 2716-2725 (mechanic teams fall back
from the base team name, stripped at the first parenthesis, to the
full name, to a default 1st shift). -/
def shiftsForTeam (s : Scheduler) (team : String) (is_quality is_customer : Bool) : List String :=
  if is_customer then (alookup s.customer_team_shifts team).getD ["1st"]
  else if is_quality then (alookup s.quality_team_shifts team).getD ["1st"]
  else
    let base_team := if pyContains "(" team then pyStrip (pySplitFirst "(" team) else team
    (alookup s.team_shifts base_team).getD ((alookup s.team_shifts team).getD ["1st"])

/-- The body of the shift loop of `get_next_working_time_with_capacity`
(lines 2741-2808): compute the shift window, skip shifts that already
ended, round the candidate start up to a quarter hour, require the task
to fit inside the shift, and admit the slot if the team's remaining
capacity covers the requested headcount. -/
def tryShift (s : Scheduler) (sched : List (String × SchedRecord)) (current_time : Int)
    (team : String) (mechanics_needed duration : Nat) (capacity : Nat)
    (is_quality is_customer : Bool) (days_ahead : Nat) (check_date : Int)
    (shift : String) : Option (Int × String) :=
  match shiftWindow s current_time days_ahead check_date shift with
  | none => none
  | some (shift_start, shift_end) =>
    if shift_end ≤ current_time then none
    else
      let earliest_in_shift := roundUpQuarter (max shift_start current_time)
      let task_end := earliest_in_shift + (duration : Int)
      if shift_end < task_end then none
      else
        let conflicts := overlapConflicts sched team is_quality is_customer earliest_in_shift task_end
        if (mechanics_needed : Int) ≤ (capacity : Int) - (conflicts : Int) then
          some (earliest_in_shift, shift)
        else none

/-- `get_next_working_time_with_capacity` (lines 2711-2810): search the
next 30 days; on each working day of the product line try the team's
shifts in order and return the first admissible quarter-aligned slot,
or `none` when the team cannot ever host the task or no slot exists in
the horizon. -/
def get_next_working_time_with_capacity (s : Scheduler) (sched : List (String × SchedRecord))
    (current_time : Int) (product_line : Option String) (team : String)
    (mechanics_needed duration : Nat) (is_quality is_customer : Bool) :
    Option (Int × String) :=
  let capacity := capacityForTeam s team is_quality is_customer
  let shifts := shiftsForTeam s team is_quality is_customer
  if capacity == 0 || capacity < mechanics_needed then none
  else
    (List.range 30).findSome? (fun (days_ahead : Nat) =>
      let check_date := (current_time + (days_ahead : Int) * 1440) / 1440
      if !(is_working_day s check_date product_line) then none
      else
        shifts.findSome?
          (tryShift s sched current_time team mechanics_needed duration capacity
            is_quality is_customer days_ahead check_date))

/-- The alias dictionary of `_normalize_relationship_type`
(lines 1494-1511). -/
def relationship_mappings : List (String × String) :=
  [("FS", "Finish <= Start"),
   ("Finish-Start", "Finish <= Start"),
   ("F-S", "Finish <= Start"),
   ("F=S", "Finish = Start"),
   ("Finish=Start", "Finish = Start"),
   ("FF", "Finish <= Finish"),
   ("Finish-Finish", "Finish <= Finish"),
   ("F-F", "Finish <= Finish"),
   ("SS", "Start <= Start"),
   ("Start-Start", "Start <= Start"),
   ("S-S", "Start <= Start"),
   ("S=S", "Start = Start"),
   ("Start=Start", "Start = Start"),
   ("SF", "Start <= Finish"),
   ("Start-Finish", "Start <= Finish"),
   ("S-F", "Start <= Finish")]

/-- `_normalize_relationship_type` (lines 1487-1513): a falsy input
(missing or empty) becomes `Finish <= Start`; otherwise the input is
stripped and looked up in the alias table, defaulting to the stripped
string itself. -/
def normalize_relationship_type (relationship : Option String) : String :=
  match relationship with
  | none => "Finish <= Start"
  | some r =>
    if r == "" then "Finish <= Start"
    else
      let r := pyStrip r
      (alookup relationship_mappings r).getD r

/-- The time fields `check_constraint_satisfied` reads from either a
proposed placement dict or a schedule record. -/
structure TimeWindow where
  start_time : Int
  end_time : Int
  duration : Nat
deriving DecidableEq, Repr

/-- `check_constraint_satisfied` (lines 1515-1563).  A missing (falsy)
endpoint short-circuits to `(True, None, None)`.  The equality
relationships use the 60-second tolerance of the source, expressed in
seconds (our times are whole minutes, so it amounts to exact
equality). -/
def check_constraint_satisfied (first_schedule second_schedule : Option TimeWindow)
    (relationship : Option String) : Bool × Option Int × Option Int :=
  match first_schedule, second_schedule with
  | some fs, some ss =>
    let first_start := fs.start_time
    let first_end := fs.end_time
    let second_start := ss.start_time
    let second_end := ss.end_time
    let second_duration := ss.duration
    let rel := normalize_relationship_type relationship
    if rel == "Finish <= Start" then
      (decide (first_end ≤ second_start), some first_end,
        some (first_end + (second_duration : Int)))
    else if rel == "Finish = Start" then
      (decide (((first_end - second_start) * 60).natAbs < 60), some first_end,
        some (first_end + (second_duration : Int)))
    else if rel == "Finish <= Finish" then
      (decide (first_end ≤ second_end),
        some (max first_end (second_start + (second_duration : Int)) - (second_duration : Int)),
        some (max first_end (second_start + (second_duration : Int))))
    else if rel == "Start <= Start" then
      (decide (first_start ≤ second_start), some first_start,
        some (first_start + (second_duration : Int)))
    else if rel == "Start = Start" then
      (decide (((first_start - second_start) * 60).natAbs < 60), some first_start,
        some (first_start + (second_duration : Int)))
    else if rel == "Start <= Finish" then
      (decide (first_start ≤ second_end),
        some (max first_start (second_start + (second_duration : Int)) - (second_duration : Int)),
        some (max first_start (second_start + (second_duration : Int))))
    else
      (decide (first_end ≤ second_start), some first_end,
        some (first_end + (second_duration : Int)))
  | _, _ => (true, none, none)

/-- The first run of digits in a string, as `re.search(r'(\d+)')`
finds it. -/
def firstNumber (str : String) : Option String :=
  let ds := (str.toList.dropWhile (fun c => !c.isDigit)).takeWhile Char.isDigit
  if ds.isEmpty then none else some (String.mk ds)

/-- `map_mechanic_to_quality_team` (lines 132-152): falsy team names
map to nothing; otherwise take the first number in the name and look
for the matching `Quality Team N` in the quality capacity table. -/
def map_mechanic_to_quality_team (s : Scheduler) (mechanic_team : String) : Option String :=
  if mechanic_team == "" then none
  else
    match firstNumber mechanic_team with
    | some n =>
      let quality_team := "Quality Team " ++ n
      if (alookup s.quality_team_capacity quality_team).isSome then some quality_team
      else none
    | none => none

/-- `get_earliest_start_for_late_part` (lines 2457-2466): without an
on-dock date the engine start datum is used; otherwise the on-dock
date plus the configured delay, with the time of day replaced by
06:00. -/
def get_earliest_start_for_late_part (s : Scheduler) (tid : String) : Int :=
  match alookup s.on_dock_dates tid with
  | none => start_date
  | some on_dock => ((on_dock + s.late_part_delay_minutes) / 1440) * 1440 + 360

/-- `calculate_critical_path_length` (lines 2860-2884): duration plus
the maximum critical path among successors that are defined tasks.
The Python memoisation cache is replaced with structural fuel, which is
always supplied in excess of the longest chain. -/
def criticalPathLength (tasks : List (String × TaskInfo)) (constraints : List Constraint) :
    Nat → String → Nat
  | 0, _ => 0
  | Nat.succ fuel, tid =>
    let task_duration := match alookup tasks tid with
      | some ti => ti.duration
      | none => 0
    let succ_paths := (constraints.filter (fun c => c.first == tid)).map (fun c =>
      if (alookup tasks c.second).isSome then criticalPathLength tasks constraints fuel c.second
      else 0)
    task_duration + succ_paths.foldl max 0

/-- `calculate_task_priority` (lines 2380-2455).  Late parts score from
their on-dock horizon; quality inspections whose primary is already in
the schedule inherit the primary's priority minus one (else -2000);
rework scores from the most urgent dependent's delivery; baseline tasks
combine delivery distance, critical path and duration.  `tasks` is
passed explicitly because the engine can mutate a task's team during
quality recovery; `sched` is the current `task_schedule`.  The fuel
bounds the primary-chain recursion (unbounded but terminating in
Python on the acyclic data the engine accepts). -/
def calculate_task_priority (s : Scheduler) (tasks : List (String × TaskInfo))
    (sched : List (String × SchedRecord)) : Nat → String → PRat
  | 0, _ => 0
  | Nat.succ fuel, tid =>
    if s.late_part_tasks.contains tid then
      match alookup s.on_dock_dates tid with
      | some on_dock =>
        let days_until_available : Int := (on_dock - s.now) / 1440
        (-3000 : PRat) + (days_until_available : PRat) * 10
      | none => (-3000 : PRat)
    else
      match alookup s.quality_inspections tid with
      | some primaryOpt =>
        match primaryOpt with
        | some p =>
          if p != "" && (alookup sched p).isSome then
            calculate_task_priority s tasks sched fuel p - 1
          else (-2000 : PRat)
        | none => (-2000 : PRat)
      | none =>
        if s.rework_tasks.contains tid then
          let dependent_tasks := (s.constraints.filter (fun c => c.first == tid)).map (·.second)
          let min_dependent :=
            dependent_tasks.foldl (fun (acc : Option Int) dep =>
              match alookup tasks dep with
              | none => acc
              | some dti =>
                match dti.product with
                | none => acc
                | some dp =>
                  if dp == "" then acc
                  else
                    match alookup s.delivery_dates dp with
                    | none => acc
                    | some dd =>
                      let days_to_delivery := (dd - s.now) / 1440
                      let dep_priority := (100 - days_to_delivery) * 20
                      some (match acc with
                            | none => dep_priority
                            | some m => min m dep_priority)) none
          match min_dependent with
          | some m => (m : PRat) - 100
          | none => (-500 : PRat)
        else
          let ti := alookup tasks tid
          let days_to_delivery : Int :=
            match ti.bind (·.product) with
            | some p =>
              if p == "" then 999
              else
                match alookup s.delivery_dates p with
                | some dd => (dd - s.now) / 1440
                | none => 999
            | none => 999
          let critical_path := criticalPathLength tasks s.constraints (tasks.length + 1) tid
          let duration := (ti.map (·.duration)).getD 0
          ((100 : PRat) - (days_to_delivery : PRat)) * 20
            + ((10000 : PRat) - (critical_path : PRat)) * 5
            + ((100 : PRat) - (duration : PRat) / 10) * 2

/-- The fuel we hand `calculate_task_priority`; it dominates the length
of any acyclic primary-inspection chain. -/
def priorityFuel (tasks : List (String × TaskInfo)) : Nat := tasks.length + 1

/-- Lexicographic code-point comparison of character lists (Python
string `<`), structural so the kernel can evaluate it. -/
def charListLtb : List Char → List Char → Bool
  | [], [] => false
  | [], _ :: _ => true
  | _ :: _, [] => false
  | a :: as, b :: bs => a.toNat < b.toNat || (a.toNat == b.toNat && charListLtb as bs)

/-- Python `a < b` on strings. -/
def strLtb (a b : String) : Bool := charListLtb a.toList b.toList

/-- Strict comparison of Python `(priority, task_id)` tuples, as
`heapq` orders them. -/
def pairLtb (a b : PRat × String) : Bool :=
  a.1 < b.1 || (a.1 == b.1 && strLtb a.2 b.2)

/-- The minimum entry of the heap under the tuple order (the entry
`heapq.heappop` returns); among equal tuples the earliest is kept. -/
def heapMinElem : List (PRat × String) → Option (PRat × String)
  | [] => none
  | x :: xs =>
    match heapMinElem xs with
    | none => some x
    | some y => if pairLtb y x then some y else some x

/-- Remove the first occurrence of an entry. -/
def removeFirstPair : List (PRat × String) → (PRat × String) → List (PRat × String)
  | [], _ => []
  | x :: xs, y => if x == y then xs else x :: removeFirstPair xs y

/-- `heapq.heappop` on the ready queue: extract the minimal
`(priority, task_id)` tuple. -/
def heapPopMin (h : List (PRat × String)) : Option ((PRat × String) × List (PRat × String)) :=
  match heapMinElem h with
  | none => none
  | some m => some (m, removeFirstPair h m)

/-- `heapq.heappush`: the heap is modelled by its multiset of entries,
kept in insertion order. -/
def heapPush (h : List (PRat × String)) (x : PRat × String) : List (PRat × String) :=
  h ++ [x]

/-- `constraints_by_second` (line 1586): incoming constraints of a
task, in list order. -/
def constraintsBySecond (cs : List Constraint) (tid : String) : List Constraint :=
  cs.filter (fun c => c.second == tid)

/-- `constraints_by_first` (line 1587): outgoing constraints of a
task, in list order. -/
def constraintsByFirst (cs : List Constraint) (tid : String) : List Constraint :=
  cs.filter (fun c => c.first == tid)

/-- The mutable engine state threaded through the main loop of
`schedule_tasks`: the schedule dict, the ready heap, the failed set,
the retry counters, the count of placed instances, the two failure
report lists, and the task table (which quality-team recovery can
mutate in place, line 1768). -/
structure LoopState where
  tasks : List (String × TaskInfo)
  sched : List (String × SchedRecord)
  ready : List (PRat × String)
  failed : List String
  retries : List (String × Nat)
  scheduledCount : Nat
  cannotSchedule : List String
  farFuture : List String
deriving Repr

/-- Current retry count of a task (`task_retry_counts` is a
`defaultdict(int)`). -/
def retryCount (st : LoopState) (tid : String) : Nat :=
  (alookup st.retries tid).getD 0

/-- The no-slot path shared verbatim by the three placement branches
(lines 1740-1749, 1781-1790, 1808-1817): record the failure, bump the
retry count, re-queue with a 0.1 penalty below three retries and mark
failed otherwise. -/
def noSlotRetry (st : LoopState) (tid : String) (priority : PRat) : LoopState :=
  let st := { st with cannotSchedule := st.cannotSchedule ++ [tid] }
  let rc := retryCount st tid + 1
  let st := { st with retries := aset st.retries tid rc }
  if rc < 3 then { st with ready := heapPush st.ready (priority + (1 : PRat) / 10, tid) }
  else { st with failed := st.failed ++ [tid] }

/-- One step of the predecessor fold of lines 1690-1713: when the
constraint's `First` task is scheduled, raise the running earliest
start by the relationship's implied bound, and remember the start of a
`Start = Start` predecessor as the pin. -/
def earliestStartFold (sched : List (String × SchedRecord)) (duration : Nat)
    (acc : Int × Option Int) (c : Constraint) : Int × Option Int :=
  match alookup sched c.first with
  | none => acc
  | some first_schedule =>
    let constraint_time : Int :=
      if c.relationship == "Finish <= Start" then first_schedule.end_time
      else if c.relationship == "Finish = Start" then first_schedule.end_time
      else if c.relationship == "Start <= Start" || c.relationship == "Start = Start" then
        first_schedule.start_time
      else if c.relationship == "Finish <= Finish" then
        first_schedule.end_time - (duration : Int)
      else if c.relationship == "Start <= Finish" then
        first_schedule.start_time - (duration : Int)
      else first_schedule.end_time
    let acc := (max acc.1 constraint_time, acc.2)
    if c.relationship == "Start = Start" then (acc.1, some first_schedule.start_time)
    else acc

/-- The `earliest_start` computation of lines 1684-1716: start from the
engine datum, raise it for late parts to the on-dock bound, raise it by
every scheduled predecessor's implied bound per relationship, and
finally pin it to the last scheduled `Start = Start` predecessor's
start when one exists (a datetime is always truthy at line 1715). -/
def computeEarliestStart (s : Scheduler) (sched : List (String × SchedRecord))
    (tid : String) (duration : Nat) : Int :=
  let earliest0 : Int :=
    if s.late_part_tasks.contains tid then get_earliest_start_for_late_part s tid
    else start_date
  let folded := (constraintsBySecond s.constraints tid).foldl (earliestStartFold sched duration)
    (earliest0, none)
  match folded.2 with
  | some pinned => pinned
  | none => folded.1

/-- The schedule record written at lines 1834-1848. -/
def placeRecord (s : Scheduler) (tid : String) (ti : TaskInfo)
    (scheduled_start : Int) (shift team_for base_for : String) : SchedRecord :=
  { start_time := scheduled_start
    end_time := scheduled_start + (ti.duration : Int)
    team := base_for
    team_skill := team_for
    skill := ti.skill
    product := ti.product.getD "Unknown"
    duration := ti.duration
    mechanics_required := ti.mechanics_required
    is_quality := ti.is_quality
    is_customer := ti.is_customer
    task_type := ti.task_type
    shift := shift
    original_task_id := alookup s.instance_to_original tid }

/-- The tail of a successful placement (lines 1823-1867): fail the task
instead when its start runs past year 2030; otherwise store the record,
bump the placed count, and push every dependent whose predecessors are
now all placed and which is neither placed, failed nor already
queued. -/
def placeTask (s : Scheduler) (st : LoopState) (tid : String) (ti : TaskInfo)
    (scheduled_start : Int) (shift team_for base_for : String) : LoopState :=
  if farFutureCutoff ≤ scheduled_start then
    { st with farFuture := st.farFuture ++ [tid], failed := st.failed ++ [tid] }
  else
    let st := { st with
      sched := st.sched ++ [(tid, placeRecord s tid ti scheduled_start shift team_for base_for)]
      scheduledCount := st.scheduledCount + 1 }
    (constraintsByFirst s.constraints tid).foldl
      (fun st c =>
        let dependent := c.second
        if (alookup st.sched dependent).isSome || st.failed.contains dependent then st
        else
          if (constraintsBySecond s.constraints dependent).all
                (fun dc => (alookup st.sched dc.first).isSome)
              && st.ready.all (fun e => e.2 != dependent) then
            let dep_priority :=
              calculate_task_priority s st.tasks st.sched (priorityFuel st.tasks) dependent
            { st with ready := heapPush st.ready (dep_priority, dependent) }
          else st)
      st

/-- The customer branch's team search (lines 1727-1738): try every
customer team with sufficient capacity and keep the strictly earliest
feasible start. -/
def bestCustomerSlot (s : Scheduler) (sched : List (String × SchedRecord))
    (earliest_start : Int) (product_line : Option String)
    (mechanics_needed duration : Nat) : Option (String × Int × String) :=
  s.customer_team_capacity.foldl
    (fun (acc : Option (String × Int × String)) tc =>
      if mechanics_needed ≤ tc.2 then
        match get_next_working_time_with_capacity s sched earliest_start product_line tc.1
            mechanics_needed duration false true with
        | some (slot_start, slot_shift) =>
          match acc with
          | none => some (tc.1, slot_start, slot_shift)
          | some (_, best_start, _) =>
            if slot_start < best_start then some (tc.1, slot_start, slot_shift) else acc
        | none => acc
      else acc)
    none

/-- The quality branch's team resolution with recovery
(lines 1756-1775): map the task's base mechanic team; when that fails
and the instance is a known quality inspection, recover via the primary
task's team and record the primary's team into the task table (the
in-place `task_info['team']` mutation of line 1768). -/
def resolveQualityTeam (s : Scheduler) (tasks : List (String × TaskInfo))
    (tid : String) (ti : TaskInfo) : Option String × List (String × TaskInfo) :=
  match map_mechanic_to_quality_team s ti.team with
  | some q => (some q, tasks)
  | none =>
    match alookup s.quality_inspections tid with
    | some (some primary_task_id) =>
      if primary_task_id != "" then
        match alookup tasks primary_task_id with
        | some pti =>
          match map_mechanic_to_quality_team s pti.team with
          | some q => (some q, aset tasks tid { ti with team := pti.team })
          | none => (none, tasks)
        | none => (none, tasks)
      else (none, tasks)
    | _ => (none, tasks)

/-- One iteration of the main loop of `schedule_tasks`
(lines 1643-1867), entered with a non-empty ready heap: pop the
minimal `(priority, task_id)` tuple, fail tasks that exhausted their
retries, compute the constraint-implied earliest start, pick the team
per task kind, query the resource ledger, and either place the task or
re-queue it. -/
def scheduleStep (s : Scheduler) (st : LoopState) : LoopState :=
  match heapPopMin st.ready with
  | none => st
  | some ((priority, tid), rest) =>
    let st := { st with ready := rest }
    if 3 ≤ retryCount st tid then
      if st.failed.contains tid then st else { st with failed := st.failed ++ [tid] }
    else
      match alookup st.tasks tid with
      | none => st
      | some ti =>
        let duration := ti.duration
        let mechanics_needed := ti.mechanics_required
        let product_line : Option String := some (ti.product.getD "Unknown")
        let earliest_start := computeEarliestStart s st.sched tid duration
        if ti.is_customer then
          match bestCustomerSlot s st.sched earliest_start product_line mechanics_needed duration with
          | none => noSlotRetry st tid priority
          | some (best_team, best_start, best_shift) =>
            placeTask s st tid ti best_start best_shift best_team best_team
        else if ti.is_quality then
          match resolveQualityTeam s st.tasks tid ti with
          | (none, tasks2) =>
            let st := { st with tasks := tasks2 }
            let rc := retryCount st tid + 1
            let st := { st with retries := aset st.retries tid rc }
            if rc < 3 then { st with ready := heapPush st.ready (priority + (1 : PRat) / 10, tid) }
            else st
          | (some quality_team, tasks2) =>
            let st := { st with tasks := tasks2 }
            match get_next_working_time_with_capacity s st.sched earliest_start product_line
                quality_team mechanics_needed duration true false with
            | none => noSlotRetry st tid priority
            | some (scheduled_start, shift) =>
              placeTask s st tid ti scheduled_start shift quality_team quality_team
        else
          let team_for_scheduling := ti.team_skill.getD ti.team
          let base_team :=
            if pyContains "(" team_for_scheduling && pyContains ")" team_for_scheduling then
              pyStrip (pySplitFirst " (" team_for_scheduling)
            else ti.team
          match get_next_working_time_with_capacity s st.sched earliest_start product_line
              team_for_scheduling mechanics_needed duration false false with
          | none => noSlotRetry st tid priority
          | some (scheduled_start, shift) =>
            placeTask s st tid ti scheduled_start shift team_for_scheduling base_team

/-- The loop driver: `while ready_tasks and scheduled_count <
total_tasks and iteration_count < max_iterations` (line 1643); the fuel
is `max_iterations = 10 * total_tasks`.  (The re-seeding block at lines
1646-1665 is dead code: the loop condition guarantees a non-empty
heap.) -/
def scheduleLoop (s : Scheduler) (total : Nat) : Nat → LoopState → LoopState
  | 0, st => st
  | Nat.succ fuel, st =>
    if st.ready.isEmpty || total ≤ st.scheduledCount then st
    else scheduleLoop s total fuel (scheduleStep s st)

/-- The initial ready heap of lines 1596-1628: orphaned tasks, tasks
with only outgoing constraints, and tasks whose incoming constraints
are all non-blocking.  The three groups are disjoint; the source
iterates Python sets, whose ordering cannot affect which tuples the
heap pops, so we enumerate each group in a fixed order. -/
def seedReady (s : Scheduler) : List (PRat × String) :=
  let incoming := (s.constraints.map (·.second)).eraseDups
  let outgoing := (s.constraints.map (·.first)).eraseDups
  let keys := s.tasks.map (·.1)
  let orphaned := keys.filter (fun t => !(incoming.contains t) && !(outgoing.contains t))
  let only_outgoing := outgoing.filter (fun t => !(incoming.contains t))
  let non_blocking := incoming.filter (fun t =>
    !((constraintsBySecond s.constraints t).any (fun c =>
      c.relationship == "Finish <= Start" || c.relationship == "Finish = Start"
        || c.relationship == "Finish <= Finish")))
  (orphaned ++ only_outgoing ++ non_blocking).map
    (fun t => (calculate_task_priority s s.tasks [] (priorityFuel s.tasks) t, t))

/-- The engine state at loop entry: empty schedule (line 1573), seeded
ready heap, no failures or retries. -/
def initialLoopState (s : Scheduler) : LoopState :=
  { tasks := s.tasks, sched := [], ready := seedReady s, failed := [], retries := [],
    scheduledCount := 0, cannotSchedule := [], farFuture := [] }

/-- `schedule_tasks` (lines 1567-1893): reset the schedule, seed the
ready heap, and run the bounded main loop.  The result is the final
loop state; its `sched` field is `self.task_schedule` at return. -/
def schedule_tasks (s : Scheduler) : LoopState :=
  let total := s.tasks.length
  scheduleLoop s total (total * 10) (initialLoopState s)

/-- The working-day test of the makespan loop (lines 3128-3133): a day
counts when it is a working day for at least one product with a
delivery date. -/
def anyProductWorkingDay (s : Scheduler) (d : Int) : Bool :=
  s.delivery_dates.any (fun pd => is_working_day s d (some pd.1))

/-- The day count of the `while current <= end_date` loop of
`calculate_makespan`: working days (per `anyProductWorkingDay`) from
the day of `t1` through the day of `t2`, inclusive. -/
def workingDaysSpanning (s : Scheduler) (t1 t2 : Int) : Nat :=
  (List.range (t2 / 1440 + 1 - t1 / 1440).toNat).countP
    (fun i => anyProductWorkingDay s (t1 / 1440 + (i : Int)))

/-- Earliest `start_time` of a non-empty schedule
(`min(sched['start_time'] ...)`, line 3121). -/
def earliestStart (kr0 : String × SchedRecord) (rest : List (String × SchedRecord)) : Int :=
  rest.foldl (fun m kr => min m kr.2.start_time) kr0.2.start_time

/-- Latest `end_time` of a non-empty schedule
(`max(sched['end_time'] ...)`, line 3122). -/
def latestEnd (kr0 : String × SchedRecord) (rest : List (String × SchedRecord)) : Int :=
  rest.foldl (fun m kr => max m kr.2.end_time) kr0.2.end_time

/-- `calculate_makespan` (lines 3111-3138): an empty schedule yields 0;
a schedule with fewer records than task instances yields the sentinel
999999; otherwise the inclusive working-day span from the earliest
start to the latest end. -/
def calculate_makespan (s : Scheduler) (sched : List (String × SchedRecord)) : Nat :=
  match sched with
  | [] => 0
  | kr0 :: rest =>
    if (kr0 :: rest).length < s.tasks.length then 999999
    else workingDaysSpanning s (earliestStart kr0 rest) (latestEnd kr0 rest)

/-- A per-team capacity vector of scenario 3 (`config['mechanic']` and
`config['quality']`). -/
structure CapacityConfig where
  mechanic : List (String × Nat)
  quality : List (String × Nat)
deriving DecidableEq, Repr

/-- The scheduler state the scenario drivers mutate: the two capacity
dicts, the schedule, and the two caches. -/
structure ScenarioState where
  team_capacity : List (String × Nat)
  quality_team_capacity : List (String × Nat)
  task_schedule : List (String × SchedRecord)
  critical_path_cache : List (String × Nat)
  dynamic_constraints_cache : Option (List Constraint)
deriving DecidableEq, Repr

/-- The per-iteration prelude of `scenario_2_minimize_makespan`
(lines 3034-3042): set every mechanic team to the trial mechanic
capacity and every quality team to the trial quality capacity, then
clear the schedule and the critical-path cache. -/
def scenario2_iteration_prelude (mech_capacity qual_capacity : Nat)
    (st : ScenarioState) : ScenarioState :=
  { st with
    team_capacity := st.team_capacity.map (fun tc => (tc.1, mech_capacity))
    quality_team_capacity := st.quality_team_capacity.map (fun tc => (tc.1, qual_capacity))
    task_schedule := []
    critical_path_cache := [] }

/-- `apply_capacity_configuration` (lines 3954-3959): write every
config entry into the corresponding capacity dict. -/
def apply_capacity_configuration (config : CapacityConfig) (st : ScenarioState) : ScenarioState :=
  { st with
    team_capacity := config.mechanic.foldl (fun m tc => aset m tc.1 tc.2) st.team_capacity
    quality_team_capacity :=
      config.quality.foldl (fun m tc => aset m tc.1 tc.2) st.quality_team_capacity }

/-- The per-iteration prelude of `scenario_3_simulated_annealing`
(lines 5746-5748): apply the trial configuration, then clear the
schedule and the critical-path cache. -/
def scenario3_iteration_prelude (config : CapacityConfig) (st : ScenarioState) : ScenarioState :=
  let st := apply_capacity_configuration config st
  { st with task_schedule := [], critical_path_cache := [] }

/-- The memoisation guard of `build_dynamic_dependencies`
(lines 1141-1142, 1456): return the cached list when present, else run
the builder and cache its result. -/
def build_dynamic_dependencies_cached (st : ScenarioState)
    (build : Unit → List Constraint) : List Constraint × ScenarioState :=
  match st.dynamic_constraints_cache with
  | some cached => (cached, st)
  | none =>
    let built := build ()
    (built, { st with dynamic_constraints_cache := some built })

/-- The capacity restore run on scenario exit (lines 3086-3090 and
5826-5830): write every original binding back into the capacity
dicts. -/
def restore_original_capacities (original_team original_quality : List (String × Nat))
    (st : ScenarioState) : ScenarioState :=
  { st with
    team_capacity := original_team.foldl (fun m tc => aset m tc.1 tc.2) st.team_capacity
    quality_team_capacity :=
      original_quality.foldl (fun m tc => aset m tc.1 tc.2) st.quality_team_capacity }

/-- `fix_unscheduled_tasks` (lines 5964-5977): bump by one the config
capacity of the team of every unscheduled task; teams whose name
contains `Quality` go to the quality config, every other team
(including customer teams) to the mechanic config. -/
def fix_unscheduled_tasks (tasks : List (String × TaskInfo))
    (sched : List (String × SchedRecord)) (config : CapacityConfig) : CapacityConfig :=
  tasks.foldl
    (fun cfg it =>
      if (alookup sched it.1).isSome then cfg
      else
        let team := it.2.team_skill.getD it.2.team
        if team == "" then cfg
        else if pyContains "Quality" team then
          { cfg with quality := aset cfg.quality team ((alookup cfg.quality team).getD 0 + 1) }
        else
          { cfg with mechanic := aset cfg.mechanic team ((alookup cfg.mechanic team).getD 0 + 1) })
    config

/-- The capacity-state evolution of one whole `scenario_2` call: the
loop's iterations each run the prelude for their trial `(m, q)` pair
(the binary-search decisions only choose which pairs occur), and the
restore of lines 3086-3090 runs on exit. -/
def scenario2_capacity_run (original_team original_quality : List (String × Nat))
    (trials : List (Nat × Nat)) (entry : ScenarioState) : ScenarioState :=
  restore_original_capacities original_team original_quality
    (trials.foldl (fun st mq => scenario2_iteration_prelude mq.1 mq.2 st) entry)

/-- The capacity-state evolution of one whole `scenario_3` call: the
annealing loop mutates the capacity dicts only through the iteration
prelude (line 5746), with configs produced by the neighbour moves
(`fix_unscheduled_tasks`, `reduce_random_teams`, ..., whose random
choices we abstract as the given config sequence), and the restore of
lines 5826-5830 runs on exit. -/
def scenario3_capacity_run (original_team original_quality : List (String × Nat))
    (configs : List CapacityConfig) (entry : ScenarioState) : ScenarioState :=
  restore_original_capacities original_team original_quality
    (configs.foldl (fun st config => scenario3_iteration_prelude config st) entry)

/-! ## Specification-side predicates -/

/-- Headcount in use on a team at instant `t`: the sum of
`mechanics_required` over schedule records assigned to that team (the
`team_skill` the capacity ledger tracks) whose half-open interval
`[start_time, end_time)` contains `t`. -/
def teamLoadAt (sched : List (String × SchedRecord)) (team : String) (t : Int) : Nat :=
  (sched.map (fun kr =>
    if kr.2.team_skill == team && kr.2.start_time ≤ t && t < kr.2.end_time then
      kr.2.mechanics_required
    else 0)).sum

/-- The largest capacity any of the three ledgers grants a team name. -/
def teamCapacityBound (s : Scheduler) (team : String) : Nat :=
  max ((alookup s.team_capacity team).getD 0)
    (max ((alookup s.quality_team_capacity team).getD 0)
      ((alookup s.customer_team_capacity team).getD 0))

/-- Well-formedness of the team tables: no team name occurs in more
than one of the mechanic, quality and customer capacity dicts (true of
the data model, whose team names are `Mechanic Team N`,
`Quality Team N`, `Customer Team N`). -/
def capacityMapsDisjoint (s : Scheduler) : Bool :=
  s.team_capacity.all (fun tc =>
    (alookup s.quality_team_capacity tc.1).isNone
      && (alookup s.customer_team_capacity tc.1).isNone)
  && s.quality_team_capacity.all (fun tc => (alookup s.customer_team_capacity tc.1).isNone)

/-- The capacity of a team: its entry in whichever capacity dict
defines it (0 for unknown teams). -/
def theTeamCapacity (s : Scheduler) (team : String) : Nat :=
  match alookup s.team_capacity team with
  | some c => c
  | none =>
    match alookup s.quality_team_capacity team with
    | some c => c
    | none => (alookup s.customer_team_capacity team).getD 0

/-- Claim C1's invariant: after a run of the engine, no team is ever
loaded above its capacity at any instant. -/
def capacityInvariantHolds (s : Scheduler) : Prop :=
  ∀ team t, teamLoadAt (schedule_tasks s).sched team t ≤ theTeamCapacity s team

/-- Claim C2's fit property: the returned slot lies inside the window
of the returned shift on one of the thirty searched days. -/
def fits_within_shift (s : Scheduler) (current_time slot_start : Int) (duration : Nat)
    (shift : String) : Prop :=
  ∃ days_ahead : Nat, days_ahead < 30 ∧
    ∃ ws we,
      shiftWindow s current_time days_ahead ((current_time + (days_ahead : Int) * 1440) / 1440)
          shift = some (ws, we)
        ∧ ws ≤ slot_start ∧ slot_start + (duration : Int) ≤ we

/-- No incoming constraint of `tid` carries the `Start = Start`
relationship (the only relationship that can pin `earliest_start`
downward, line 1712-1716). -/
def noStartEqStartInto (s : Scheduler) (tid : String) : Bool :=
  (constraintsBySecond s.constraints tid).all (fun c => c.relationship != "Start = Start")

/-! ## Concrete schedulers used to witness and refute claims -/

/-- A one-shift mechanic production task. -/
def tiProd : TaskInfo :=
  { duration := 60, mechanics_required := 1, is_quality := false, is_customer := false,
    task_type := "Production", product := some "P", team := "Mechanic Team 1",
    team_skill := some "Mechanic Team 1", skill := none }

/-- A late-part task on the same team. -/
def tiLate : TaskInfo := { tiProd with task_type := "Late Part" }

/-- A quality inspection task whose primary is `P_1`. -/
def tiQI : TaskInfo :=
  { tiProd with
    task_type := "Quality Inspection"
    is_quality := true
    team := "Mechanic Team 1"
    team_skill := some "Quality Team 1" }

/-- A customer inspection task. -/
def tiCust : TaskInfo :=
  { tiProd with
    task_type := "Customer Inspection"
    is_customer := true
    team := "Customer Team 1"
    team_skill := some "Customer Team 1" }

/-- Scheduler with a production task `A` and a late part `LP_1` whose
on-dock date is day 20, tied by a `Start = Start` constraint from `A`;
`A` has an intentionally low priority (a distant delivery), so it is
placed first and its start pins the late part below the on-dock
bound. -/
def exPin : Scheduler :=
  { tasks := [("A", tiProd), ("LP_1", tiLate)]
    constraints := [⟨"A", "LP_1", "Start = Start"⟩]
    team_capacity := [("Mechanic Team 1", 5)]
    quality_team_capacity := []
    customer_team_capacity := []
    team_shifts := [("Mechanic Team 1", ["1st"])]
    quality_team_shifts := []
    customer_team_shifts := []
    shift_hours := [("1st", ⟨6, 0, 14, 30⟩)]
    holidays := []
    delivery_dates := [("P", 6120 + 5000 * 1440)]
    late_part_tasks := ["LP_1"]
    rework_tasks := []
    on_dock_dates := [("LP_1", 28800)]
    late_part_delay_minutes := 1440
    quality_inspections := []
    instance_to_original := []
    now := 6120 }

/-- The pin-free variant: the late part alone, with no incoming
constraints. -/
def exLate : Scheduler := { exPin with tasks := [("LP_1", tiLate)], constraints := [] }

/-- Scheduler with a predecessor `P` and two equal-priority successors
`T_B` and `T_A`; the constraint order pushes `T_B` into the ready heap
before `T_A`. -/
def exTie : Scheduler :=
  { exPin with
    tasks := [("P", tiProd), ("T_B", tiProd), ("T_A", tiProd)]
    constraints := [⟨"P", "T_B", "Finish <= Start"⟩, ⟨"P", "T_A", "Finish <= Start"⟩]
    late_part_tasks := []
    on_dock_dates := [] }

/-- The loop state of `exTie` after its first iteration (the placing
of `P`, which pushes `T_B` and then `T_A`). -/
def exTieStep1 : LoopState := scheduleStep exTie (initialLoopState exTie)

/-- Scheduler with a production task `P_1` and its quality inspection
`QI_1` (1:1-mapped quality team present). -/
def exQI : Scheduler :=
  { exPin with
    tasks := [("P_1", tiProd), ("QI_1", tiQI)]
    constraints := [⟨"P_1", "QI_1", "Finish = Start"⟩]
    quality_team_capacity := [("Quality Team 1", 2)]
    quality_team_shifts := [("Quality Team 1", ["1st"])]
    late_part_tasks := []
    on_dock_dates := []
    quality_inspections := [("QI_1", some "P_1")] }

/-- A schedule record used as a concrete dict entry in examples. -/
def exRec : SchedRecord :=
  { start_time := 30600, end_time := 30660, team := "Mechanic Team 1",
    team_skill := "Mechanic Team 1", skill := none, product := "P", duration := 60,
    mechanics_required := 1, is_quality := false, is_customer := false,
    task_type := "Production", shift := "1st", original_task_id := none }

/-- A concrete scenario state with a populated dependency cache. -/
def exScenarioState : ScenarioState :=
  { team_capacity := [("Mechanic Team 1", 3)]
    quality_team_capacity := [("Quality Team 1", 2)]
    task_schedule := [("X", exRec)]
    critical_path_cache := [("X", 5)]
    dynamic_constraints_cache := some [⟨"A", "B", "Finish <= Start"⟩] }

/-- The six canonical relationship strings `check_constraint_satisfied`
dispatches on. -/
def canonicalRelationships : List String :=
  ["Finish <= Start", "Finish = Start", "Finish <= Finish",
   "Start <= Start", "Start = Start", "Start <= Finish"]

/-- The loop invariant behind claim C1: no team overloaded at any
instant, measured against the largest capacity any ledger grants the
team name. -/
def SchedInv (s : Scheduler) (sched : List (String × SchedRecord)) : Prop :=
  ∀ team t, teamLoadAt sched team t ≤ teamCapacityBound s team

/-- The loop invariant behind claim C8: every placed late part with no
incoming `Start = Start` constraint starts no earlier than its on-dock
bound. -/
def LatePartInv (s : Scheduler) (sched : List (String × SchedRecord)) : Prop :=
  ∀ tid r, (tid, r) ∈ sched → s.late_part_tasks.contains tid = true →
    noStartEqStartInto s tid = true →
    get_earliest_start_for_late_part s tid ≤ r.start_time

/-- Original mechanic capacities of the scenario-3 restore example. -/
def exC7origM : List (String × Nat) := [("Mechanic Team 1", 3)]

/-- Scenario-3 entry state of the restore example: capacities equal the
originals, nothing cached. -/
def exC7entry : ScenarioState := ⟨exC7origM, [], [], [], none⟩

/-- The single annealing move of the restore example: an unscheduled
customer inspection makes `fix_unscheduled_tasks` put `Customer Team 1`
into the mechanic config. -/
def exC7final : ScenarioState :=
  scenario3_capacity_run exC7origM []
    [fix_unscheduled_tasks [("CC_1", tiCust)] [] ⟨[], []⟩] exC7entry

/-- The total order the ready heap actually realises on its tuples:
earlier priority value first (as a rational), ties broken by the task
id string, lexicographically by code point. -/
def pairRLe (a b : PRat × String) : Prop :=
  a.1.val < b.1.val ∨ (a.1.val = b.1.val ∧ (strLtb a.2 b.2 = true ∨ a.2 = b.2))

/-- The popped heap entry is minimal: it belongs to the heap and is
`pairRLe`-below every entry. -/
def popMinimal (h : List (PRat × String)) (p : PRat) (tid : String) : Prop :=
  (p, tid) ∈ h ∧ ∀ q tid2, (q, tid2) ∈ h → pairRLe (p, tid) (q, tid2)

/-- The record `schedule_tasks` produces for the lone late part of
`exLate`: placed at the on-dock bound 30600. -/
def exLateRec : SchedRecord := { exRec with task_type := "Late Part" }

/-! ## Claim C10: constraints with an unplaced endpoint -/

/-- C10: for every relationship and every pair of endpoints,
`check_constraint_satisfied` reports the constraint satisfied,
returning `(True, None, None)`, whenever either endpoint has no
schedule record; a constraint involving an unplaced instance is never
reported violated. -/
theorem C10_missing_endpoint_satisfied (relationship : Option String) (w : Option TimeWindow) :
    check_constraint_satisfied none w relationship = (true, none, none)
    ∧ check_constraint_satisfied w none relationship = (true, none, none) := by
  cases w <;> exact ⟨rfl, rfl⟩

/-! ## Claim C9: unrecognized relationships behave as FS -/

/-- C9 (counterexample): normalization does not return an unrecognized
relationship string unchanged; it strips surrounding whitespace
(`" garbage "`, not an alias, comes back as `"garbage"`). -/
theorem C9_counterexample_strip :
    normalize_relationship_type (some " garbage ") = "garbage"
    ∧ " garbage " ≠ "garbage" := by
  exact ⟨rfl, by decide⟩

/-- C9 (amended): an empty or missing relationship normalizes to
`Finish <= Start`; any other string not recognized as an alias after
stripping comes back stripped but otherwise unchanged; and constraint
checking treats any relationship whose normal form is not one of the
six canonical strings exactly as `Finish <= Start`: satisfied iff
`end(first) ≤ start(second)`, with the FS-derived bounds. -/
theorem C9_unrecognized_behaves_as_FS :
    normalize_relationship_type none = "Finish <= Start"
    ∧ normalize_relationship_type (some "") = "Finish <= Start"
    ∧ (∀ r : String, r ≠ "" → alookup relationship_mappings (pyStrip r) = none →
        normalize_relationship_type (some r) = pyStrip r)
    ∧ (∀ (fs ss : TimeWindow) (rel : Option String),
        ¬ canonicalRelationships.contains (normalize_relationship_type rel) →
        check_constraint_satisfied (some fs) (some ss) rel =
          (decide (fs.end_time ≤ ss.start_time), some fs.end_time,
            some (fs.end_time + (ss.duration : Int)))) := by
  refine ⟨rfl, rfl, ?_, ?_⟩
  · intro r hr hlook
    simp only [normalize_relationship_type]
    rw [if_neg (by simpa using hr)]
    simp [hlook]
  · intro fs ss rel hrel
    have h : canonicalRelationships.contains (normalize_relationship_type rel) = false :=
      Bool.not_eq_true _ ▸ eq_false_of_ne_true (fun hc => hrel (by simpa using hc))
    simp only [canonicalRelationships, List.contains_cons, Bool.or_eq_false_iff] at h
    obtain ⟨h1, h2, h3, h4, h5, h6, -⟩ := h
    simp only [check_constraint_satisfied, h1, h2, h3, h4, h5, h6, Bool.false_eq_true,
      if_false]

/-- Witness for C9: a concrete unrecognized relationship `" X "`
normalizes to its stripped form and is checked exactly as FS. -/
theorem C9_witness :
    normalize_relationship_type (some " X ") = "X"
    ∧ check_constraint_satisfied (some ⟨0, 60, 30⟩) (some ⟨120, 150, 30⟩) (some "X")
        = (true, some 60, some 90) := by
  constructor
  · exact (C9_unrecognized_behaves_as_FS.2.2.1 " X " (by decide) (by decide)).trans (by decide)
  · rw [C9_unrecognized_behaves_as_FS.2.2.2 ⟨0, 60, 30⟩ ⟨120, 150, 30⟩ (some "X") (by decide)]
    decide

/-! ## Claim C6: quality-inspection priority -/

/-- C6 (counterexample): `calculate_task_priority` does not always
return one less than the primary's priority for a quality inspection.
In `exQI` the primary `P_1` is not yet in the schedule, so `QI_1`
scores the flat `-2000`, while `P_1`'s priority minus one represents
`-48413`, a different rational. -/
theorem C6_counterexample :
    calculate_task_priority exQI exQI.tasks [] (priorityFuel exQI.tasks) "QI_1" = (-2000 : PRat)
    ∧ ((calculate_task_priority exQI exQI.tasks [] (priorityFuel exQI.tasks) "P_1" - 1)
        == (-2000 : PRat)) = false := by
  exact ⟨by decide, by decide⟩

/-- C6 (amended): for a quality-inspection instance that is not a late
part, whose `quality_inspections` entry names a non-empty primary that
is present in the current schedule, `calculate_task_priority` returns
exactly one less than the priority of the primary (the recursive call
runs at one less fuel, which only pads the recursion); otherwise the
code path yields `-2000`. -/
theorem C6_qi_priority_one_less_than_primary (s : Scheduler)
    (tasks : List (String × TaskInfo)) (sched : List (String × SchedRecord))
    (fuel : Nat) (tid p : String)
    (hlp : s.late_part_tasks.contains tid = false)
    (hqi : alookup s.quality_inspections tid = some (some p))
    (hp : (p != "") = true)
    (hsched : (alookup sched p).isSome = true) :
    calculate_task_priority s tasks sched (fuel + 1) tid
      = calculate_task_priority s tasks sched fuel p - 1 := by
  simp only [calculate_task_priority, hlp, hqi, hp, hsched, Bool.false_eq_true, if_false,
    Bool.and_self, if_true]

/-- Witness for C6: in `exQI` with `P_1` placed, `QI_1` scores exactly
one less than `P_1`. -/
theorem C6_witness :
    calculate_task_priority exQI exQI.tasks [("P_1", exRec)] 3 "QI_1"
      = calculate_task_priority exQI exQI.tasks [("P_1", exRec)] 2 "P_1" - 1 :=
  C6_qi_priority_one_less_than_primary exQI exQI.tasks [("P_1", exRec)] 2 "QI_1" "P_1"
    (by decide) (by decide) (by decide) (by decide)

/-! ## Claim C4: the reset between scenario runs -/

/-- C4 (counterexample): the per-iteration reset of scenarios 2 and 3
does not invalidate the dependency cache.  On a state whose
`_dynamic_constraints_cache` is populated, both preludes leave it
populated, so the next run does not rebuild its constraints. -/
theorem C4_counterexample :
    (scenario2_iteration_prelude 3 2 exScenarioState).dynamic_constraints_cache
        = some [⟨"A", "B", "Finish <= Start"⟩]
    ∧ (scenario3_iteration_prelude ⟨[("Mechanic Team 1", 4)], []⟩
          exScenarioState).dynamic_constraints_cache
        = some [⟨"A", "B", "Finish <= Start"⟩]
    ∧ some [(⟨"A", "B", "Finish <= Start"⟩ : Constraint)] ≠ none := by
  exact ⟨rfl, rfl, by decide⟩

/-- C4 (amended): between scenario runs, before applying a new
capacity vector and rescheduling, the scheduler clears the Schedule
Records and the critical-path cache, but not the dependency cache: the
memoized resolved constraint list survives the reset, and a subsequent
`build_dynamic_dependencies` returns the cached list without
rebuilding. -/
theorem C4_reset_clears_schedule_not_dependency_cache :
    (∀ (m q : Nat) (st : ScenarioState),
      (scenario2_iteration_prelude m q st).task_schedule = []
      ∧ (scenario2_iteration_prelude m q st).critical_path_cache = []
      ∧ (scenario2_iteration_prelude m q st).dynamic_constraints_cache
          = st.dynamic_constraints_cache)
    ∧ (∀ (config : CapacityConfig) (st : ScenarioState),
      (scenario3_iteration_prelude config st).task_schedule = []
      ∧ (scenario3_iteration_prelude config st).critical_path_cache = []
      ∧ (scenario3_iteration_prelude config st).dynamic_constraints_cache
          = st.dynamic_constraints_cache)
    ∧ (∀ (tc qc : List (String × Nat)) (ts : List (String × SchedRecord))
        (cp : List (String × Nat)) (cached : List Constraint)
        (build : Unit → List Constraint),
      build_dynamic_dependencies_cached ⟨tc, qc, ts, cp, some cached⟩ build
        = (cached, ⟨tc, qc, ts, cp, some cached⟩)) := by
  refine ⟨fun m q st => ⟨rfl, rfl, rfl⟩, fun config st => ⟨rfl, rfl, rfl⟩,
    fun tc qc ts cp cached build => rfl⟩

/-! ## Claim C3: makespan -/

/-- C3 (counterexample): with an empty schedule and a non-empty task
table at least one instance is unscheduled, yet `calculate_makespan`
returns 0, not the large sentinel. -/
theorem C3_counterexample :
    calculate_makespan exLate [] = 0
    ∧ exLate.tasks ≠ []
    ∧ calculate_makespan exLate [] ≠ 999999 := by
  exact ⟨rfl, by decide, by decide⟩

/-- C3 (amended): `calculate_makespan` returns 0 on an empty schedule;
on a non-empty schedule with fewer records than task instances it
returns the sentinel 999999; otherwise it returns the inclusive count
of days, working for at least one product with a delivery date,
between the earliest scheduled start and the latest scheduled end. -/
theorem C3_makespan_characterization (s : Scheduler) (sched : List (String × SchedRecord)) :
    (sched = [] → calculate_makespan s sched = 0)
    ∧ (∀ kr0 rest, sched = kr0 :: rest → sched.length < s.tasks.length →
        calculate_makespan s sched = 999999)
    ∧ (∀ kr0 rest, sched = kr0 :: rest → s.tasks.length ≤ sched.length →
        calculate_makespan s sched
          = workingDaysSpanning s (earliestStart kr0 rest) (latestEnd kr0 rest)) := by
  refine ⟨fun h => by subst h; rfl, ?_, ?_⟩
  · intro kr0 rest h hlt
    subst h
    simp only [calculate_makespan, if_pos hlt]
  · intro kr0 rest h hle
    subst h
    simp only [calculate_makespan, if_neg (by omega : ¬ (kr0 :: rest).length < s.tasks.length)]

/-- Witness for C3: a complete one-record schedule of `exLate` spans
exactly one working day. -/
theorem C3_witness :
    calculate_makespan exLate [("LP_1", exRec)]
      = workingDaysSpanning exLate (earliestStart ("LP_1", exRec) [])
          (latestEnd ("LP_1", exRec) [])
    ∧ workingDaysSpanning exLate (earliestStart ("LP_1", exRec) [])
        (latestEnd ("LP_1", exRec) []) = 1 := by
  constructor
  · exact (C3_makespan_characterization exLate [("LP_1", exRec)]).2.2 ("LP_1", exRec) []
      rfl (by decide)
  · decide

/-! ## Claim C7: capacity restoration after scenarios -/

/-- Looking up the key just set returns the new value. -/
theorem alookup_aset_self {α : Type} (m : List (String × α)) (k : String) (v : α) :
    alookup (aset m k v) k = some v := by
  induction m with
  | nil => simp [aset, alookup]
  | cons p rest ih =>
    obtain ⟨k2, v2⟩ := p
    by_cases h : k2 == k
    · simp [aset, alookup, h]
    · simp only [Bool.not_eq_true] at h
      simp [aset, alookup, h, ih]

/-- Setting one key leaves other lookups unchanged. -/
theorem alookup_aset_other {α : Type} (m : List (String × α)) (k k2 : String) (v : α)
    (h : k ≠ k2) : alookup (aset m k v) k2 = alookup m k2 := by
  induction m with
  | nil => simp [aset, alookup, beq_eq_false_iff_ne.mpr h]
  | cons p rest ih =>
    obtain ⟨k3, v3⟩ := p
    by_cases h3 : k3 == k
    · have hk : k3 = k := eq_of_beq h3
      subst hk
      simp [aset, alookup, beq_eq_false_iff_ne.mpr h]
    · simp only [Bool.not_eq_true] at h3
      by_cases h32 : k3 == k2
      · simp [aset, alookup, h3, h32]
      · simp only [Bool.not_eq_true] at h32
        simp [aset, alookup, h3, h32, ih]

/-- A `none` lookup means the key binds nowhere in the list. -/
theorem alookup_none_forall {α : Type} (m : List (String × α)) (k : String)
    (h : alookup m k = none) : ∀ p ∈ m, p.1 ≠ k := by
  induction m with
  | nil => simp
  | cons p rest ih =>
    obtain ⟨k2, v2⟩ := p
    intro q hq
    by_cases h2 : k2 == k
    · simp [alookup, h2] at h
    · simp only [alookup, h2, Bool.false_eq_true, if_false] at h
      rcases List.mem_cons.mp hq with hq | hq
      · subst hq
        simpa using (by simpa [Bool.not_eq_true] using h2 : (k2 == k) = false)
      · exact ih h q hq

/-- Folding assignments whose keys all differ from `k` leaves the
lookup of `k` unchanged. -/
theorem alookup_foldl_aset_of_notmem {α : Type} (l : List (String × α))
    (m : List (String × α)) (k : String) (h : ∀ p ∈ l, p.1 ≠ k) :
    alookup (l.foldl (fun acc tc => aset acc tc.1 tc.2) m) k = alookup m k := by
  induction l generalizing m with
  | nil => rfl
  | cons p rest ih =>
    simp only [List.foldl_cons]
    rw [ih _ (fun q hq => h q (List.mem_cons_of_mem p hq)),
      alookup_aset_other _ _ _ _ (h p (List.mem_cons_self p rest))]

/-- Replaying a duplicate-free association list over any state restores
every one of its bindings (the restore loops of lines 3086-3090 and
5826-5830). -/
theorem restore_lookup {α : Type} (orig : List (String × α))
    (hnodup : (orig.map Prod.fst).Nodup) (m : List (String × α)) (k : String) (v : α)
    (h : alookup orig k = some v) :
    alookup (orig.foldl (fun acc tc => aset acc tc.1 tc.2) m) k = some v := by
  induction orig generalizing m with
  | nil => simp [alookup] at h
  | cons p rest ih =>
    obtain ⟨k2, v2⟩ := p
    simp only [List.map_cons, List.nodup_cons] at hnodup
    by_cases h2 : k2 == k
    · have hk : k2 = k := eq_of_beq h2
      subst hk
      simp only [alookup, beq_self_eq_true, if_true, Option.some.injEq] at h
      subst h
      simp only [List.foldl_cons]
      have hrest : ∀ q ∈ rest, q.1 ≠ k2 := by
        intro q hq hqk
        exact hnodup.1 (hqk ▸ List.mem_map_of_mem Prod.fst hq)
      rw [alookup_foldl_aset_of_notmem _ _ _ hrest, alookup_aset_self]
    · simp only [alookup, h2, Bool.false_eq_true, if_false] at h
      simp only [List.foldl_cons]
      exact ih hnodup.2 _ h

/-- Rewriting every value of an association list keeps its key set:
lookups become the constant on present keys and stay `none`
otherwise. -/
theorem alookup_map_fst {α β : Type} (l : List (String × α)) (c : β) (k : String) :
    alookup (l.map (fun tc => (tc.1, c))) k = (alookup l k).map (fun _ => c) := by
  induction l with
  | nil => rfl
  | cons p rest ih =>
    by_cases h : p.1 == k
    · simp [alookup, h]
    · simp only [Bool.not_eq_true] at h
      simp [alookup, h, ih]

/-- Scenario 2's trial preludes preserve which team names are absent
from the mechanic capacity dict. -/
theorem scenario2_trials_team_none (trials : List (Nat × Nat)) (st : ScenarioState)
    (k : String) :
    (alookup (trials.foldl (fun st mq => scenario2_iteration_prelude mq.1 mq.2 st)
        st).team_capacity k = none)
      ↔ alookup st.team_capacity k = none := by
  induction trials generalizing st with
  | nil => exact Iff.rfl
  | cons mq rest ih =>
    simp only [List.foldl_cons]
    rw [ih]
    simp [scenario2_iteration_prelude, alookup_map_fst]

/-- Scenario 2's trial preludes preserve which team names are absent
from the quality capacity dict. -/
theorem scenario2_trials_quality_none (trials : List (Nat × Nat)) (st : ScenarioState)
    (k : String) :
    (alookup (trials.foldl (fun st mq => scenario2_iteration_prelude mq.1 mq.2 st)
        st).quality_team_capacity k = none)
      ↔ alookup st.quality_team_capacity k = none := by
  induction trials generalizing st with
  | nil => exact Iff.rfl
  | cons mq rest ih =>
    simp only [List.foldl_cons]
    rw [ih]
    simp [scenario2_iteration_prelude, alookup_map_fst]

/-- C7 (counterexample): scenario 3 does not restore the capacity maps
bit-identically.  An unscheduled customer task makes
`fix_unscheduled_tasks` add `Customer Team 1` to the mechanic config;
`apply_capacity_configuration` writes it into the mechanic capacity
dict, and the restore loop, which only replays original keys, leaves
it there: the final map has an entry the load-time map never had. -/
theorem C7_counterexample :
    alookup exC7final.team_capacity "Customer Team 1" = some 1
    ∧ alookup exC7origM "Customer Team 1" = none := by
  exact ⟨by decide, by decide⟩

/-- C7 (amended): on scenario exit every team present in the original
(load-time) capacity maps is restored to its original capacity.  For
scenario 2, whose trial preludes only rewrite existing keys, the
mechanic and quality capacity maps are restored identically (every
lookup agrees with the originals); for scenario 3, keys introduced
during the search may survive, but all original keys carry their
original values. -/
theorem C7_capacity_restoration (original_team original_quality : List (String × Nat))
    (hm : (original_team.map Prod.fst).Nodup)
    (hq : (original_quality.map Prod.fst).Nodup) :
    (∀ (trials : List (Nat × Nat)) (ts : List (String × SchedRecord))
        (cp : List (String × Nat)) (dc : Option (List Constraint)) (k : String),
      alookup (scenario2_capacity_run original_team original_quality trials
          ⟨original_team, original_quality, ts, cp, dc⟩).team_capacity k
        = alookup original_team k
      ∧ alookup (scenario2_capacity_run original_team original_quality trials
          ⟨original_team, original_quality, ts, cp, dc⟩).quality_team_capacity k
        = alookup original_quality k)
    ∧ (∀ (configs : List CapacityConfig) (entry : ScenarioState) (k : String) (v : Nat),
        alookup original_team k = some v →
        alookup (scenario3_capacity_run original_team original_quality configs
            entry).team_capacity k = some v)
    ∧ (∀ (configs : List CapacityConfig) (entry : ScenarioState) (k : String) (v : Nat),
        alookup original_quality k = some v →
        alookup (scenario3_capacity_run original_team original_quality configs
            entry).quality_team_capacity k = some v) := by
  refine ⟨?_, ?_, ?_⟩
  · intro trials ts cp dc k
    constructor
    · rcases hv : alookup original_team k with _ | v
      · have hmut := (scenario2_trials_team_none trials
          ⟨original_team, original_quality, ts, cp, dc⟩ k).mpr hv
        simp only [scenario2_capacity_run, restore_original_capacities]
        rw [alookup_foldl_aset_of_notmem _ _ _ (alookup_none_forall _ _ hv), hmut]
      · simp only [scenario2_capacity_run, restore_original_capacities]
        rw [restore_lookup _ hm _ _ _ hv]
    · rcases hv : alookup original_quality k with _ | v
      · have hmut := (scenario2_trials_quality_none trials
          ⟨original_team, original_quality, ts, cp, dc⟩ k).mpr hv
        simp only [scenario2_capacity_run, restore_original_capacities]
        rw [alookup_foldl_aset_of_notmem _ _ _ (alookup_none_forall _ _ hv), hmut]
      · simp only [scenario2_capacity_run, restore_original_capacities]
        rw [restore_lookup _ hq _ _ _ hv]
  · intro configs entry k v hv
    simp only [scenario3_capacity_run, restore_original_capacities]
    rw [restore_lookup _ hm _ _ _ hv]
  · intro configs entry k v hv
    simp only [scenario3_capacity_run, restore_original_capacities]
    rw [restore_lookup _ hq _ _ _ hv]

/-- Witness for C7: in the concrete scenario-3 run of the
counterexample, the original `Mechanic Team 1` capacity of 3 is
restored. -/
theorem C7_witness : alookup exC7final.team_capacity "Mechanic Team 1" = some 3 :=
  (C7_capacity_restoration exC7origM [] (by decide) (by decide)).2.1
    [fix_unscheduled_tasks [("CC_1", tiCust)] [] ⟨[], []⟩] exC7entry
    "Mechanic Team 1" 3 (by decide)

/-! ## Claim C5: heap tie-breaking -/

/-- Characters with the same code point are equal. -/
theorem char_toNat_inj {a b : Char} (h : a.toNat = b.toNat) : a = b :=
  Char.eq_of_val_eq (UInt32.eq_of_toBitVec_eq (BitVec.eq_of_toNat_eq h))

/-- Strings with the same characters are equal. -/
theorem string_toList_inj {a b : String} (h : a.toList = b.toList) : a = b := by
  cases a
  cases b
  simp only [String.toList] at h
  exact congrArg String.mk h

/-- The code-point comparison is irreflexive. -/
theorem charListLtb_irrefl : ∀ l : List Char, charListLtb l l = false
  | [] => rfl
  | c :: cs => by simp [charListLtb, charListLtb_irrefl cs]

/-- Totality of the code-point comparison: `b` is not below `a` iff
`a` is below `b` or they are equal. -/
theorem charListLtb_neg_iff : ∀ a b : List Char,
    charListLtb b a = false ↔ (charListLtb a b = true ∨ a = b)
  | [], [] => by simp [charListLtb]
  | [], c :: cs => by simp [charListLtb]
  | c :: cs, [] => by simp [charListLtb]
  | x :: xs, y :: ys => by
    have hrec := charListLtb_neg_iff xs ys
    simp only [charListLtb, Bool.or_eq_false_iff, Bool.and_eq_false_iff, Bool.or_eq_true,
      Bool.and_eq_true, List.cons.injEq, decide_eq_true_eq, decide_eq_false_iff_not,
      beq_iff_eq, beq_eq_false_iff_ne]
    rcases Nat.lt_trichotomy x.toNat y.toNat with hlt | heq | hgt
    · constructor
      · intro _
        exact Or.inl (Or.inl hlt)
      · intro _
        exact ⟨by omega, Or.inl (by omega)⟩
    · have hxy : x = y := char_toNat_inj heq
      subst hxy
      constructor
      · rintro ⟨-, h2 | h2⟩
        · exact absurd rfl h2
        · rcases hrec.mp h2 with h3 | h3
          · exact Or.inl (Or.inr ⟨rfl, h3⟩)
          · exact Or.inr ⟨rfl, h3⟩
      · intro h2
        refine ⟨by omega, Or.inr ?_⟩
        rcases h2 with (h2 | ⟨-, h2⟩) | ⟨-, h2⟩
        · exact absurd h2 (by omega)
        · exact hrec.mpr (Or.inl h2)
        · exact hrec.mpr (Or.inr h2)
    · constructor
      · rintro ⟨h1, -⟩
        exact absurd hgt h1
      · rintro ((h2 | ⟨h2, -⟩) | ⟨h2, -⟩)
        · exact absurd h2 (by omega)
        · exact absurd h2 (by omega)
        · exact absurd (congrArg Char.toNat h2) (by omega)

/-- Transitivity of the code-point comparison. -/
theorem charListLtb_trans : ∀ a b c : List Char,
    charListLtb a b = true → charListLtb b c = true → charListLtb a c = true
  | [], _ :: _, _ :: _, _, _ => rfl
  | [], [], _, h, _ => by simp [charListLtb] at h
  | [], _ :: _, [], _, h2 => by simp [charListLtb] at h2
  | _ :: _, [], _, h, _ => by simp [charListLtb] at h
  | _ :: _, _ :: _, [], _, h2 => by simp [charListLtb] at h2
  | x :: xs, y :: ys, z :: zs, h1, h2 => by
    simp only [charListLtb, Bool.or_eq_true, Bool.and_eq_true, beq_iff_eq,
      decide_eq_true_eq] at h1 h2 ⊢
    rcases h1 with h1 | ⟨h1e, h1r⟩
    · rcases h2 with h2 | ⟨h2e, h2r⟩
      · exact Or.inl (by omega)
      · exact Or.inl (by omega)
    · rcases h2 with h2 | ⟨h2e, h2r⟩
      · exact Or.inl (by omega)
      · exact Or.inr ⟨by omega, charListLtb_trans xs ys zs h1r h2r⟩

/-- For fractions with positive denominators, the strict comparison
agrees with the order of the represented rationals. -/
theorem PRat.lt_iff_val_lt (a b : PRat) (ha : 0 < a.den) (hb : 0 < b.den) :
    a < b ↔ a.val < b.val := by
  show a.num * b.den < b.num * a.den ↔ a.val < b.val
  unfold PRat.val
  rw [div_lt_div_iff₀ (by exact_mod_cast ha) (by exact_mod_cast hb)]
  constructor <;> intro h <;> exact_mod_cast h

/-- For fractions with positive denominators, `==` agrees with
equality of the represented rationals. -/
theorem PRat.beq_iff_val_eq (a b : PRat) (ha : 0 < a.den) (hb : 0 < b.den) :
    (a == b) = true ↔ a.val = b.val := by
  show (a.num * b.den == b.num * a.den) = true ↔ a.val = b.val
  unfold PRat.val
  rw [beq_iff_eq,
    div_eq_div_iff (by exact_mod_cast ha.ne') (by exact_mod_cast hb.ne')]
  constructor <;> intro h <;> exact_mod_cast h

/-- The realised heap order is reflexive. -/
theorem pairRLe_refl (a : PRat × String) : pairRLe a a :=
  Or.inr ⟨rfl, Or.inr rfl⟩

/-- The realised heap order is transitive. -/
theorem pairRLe_trans {a b c : PRat × String} (h1 : pairRLe a b) (h2 : pairRLe b c) :
    pairRLe a c := by
  rcases h1 with h1 | ⟨h1e, h1s⟩
  · rcases h2 with h2 | ⟨h2e, -⟩
    · exact Or.inl (h1.trans h2)
    · exact Or.inl (h2e ▸ h1)
  · rcases h2 with h2 | ⟨h2e, h2s⟩
    · exact Or.inl (h1e ▸ h2)
    · refine Or.inr ⟨h1e.trans h2e, ?_⟩
      rcases h1s with h1s | h1s
      · rcases h2s with h2s | h2s
        · exact Or.inl (charListLtb_trans _ _ _ h1s h2s)
        · exact Or.inl (h2s ▸ h1s)
      · rcases h2s with h2s | h2s
        · exact Or.inl (h1s ▸ h2s)
        · exact Or.inr (h1s.trans h2s)

/-- A true tuple comparison implies the realised order. -/
theorem pairRLe_of_ltb {a b : PRat × String} (ha : 0 < a.1.den) (hb : 0 < b.1.den)
    (h : pairLtb a b = true) : pairRLe a b := by
  simp only [pairLtb, Bool.or_eq_true, Bool.and_eq_true, decide_eq_true_eq] at h
  rcases h with h | ⟨he, hs⟩
  · exact Or.inl ((PRat.lt_iff_val_lt a.1 b.1 ha hb).mp h)
  · exact Or.inr ⟨(PRat.beq_iff_val_eq a.1 b.1 ha hb).mp he, Or.inl hs⟩

/-- A false tuple comparison implies the realised order the other way
round (totality of the heap order). -/
theorem pairRLe_of_not_ltb {a b : PRat × String} (ha : 0 < a.1.den) (hb : 0 < b.1.den)
    (h : pairLtb b a = false) : pairRLe a b := by
  simp only [pairLtb, Bool.or_eq_false_iff, Bool.and_eq_false_iff,
    decide_eq_false_iff_not] at h
  obtain ⟨h1, h2⟩ := h
  have h1v : ¬ b.1.val < a.1.val := fun hc =>
    h1 ((PRat.lt_iff_val_lt b.1 a.1 hb ha).mpr hc)
  rcases lt_trichotomy a.1.val b.1.val with hv | hv | hv
  · exact Or.inl hv
  · refine Or.inr ⟨hv, ?_⟩
    rcases h2 with h2 | h2
    · exact absurd ((PRat.beq_iff_val_eq b.1 a.1 hb ha).mpr hv.symm) (by simpa using h2)
    · have := (charListLtb_neg_iff a.2.toList b.2.toList).mp h2
      rcases this with h3 | h3
      · exact Or.inl h3
      · exact Or.inr (string_toList_inj h3)
  · exact absurd hv h1v

/-- An empty minimum means an empty heap. -/
theorem heapMinElem_eq_none : ∀ h : List (PRat × String), heapMinElem h = none → h = [] := by
  intro h hm
  cases h with
  | nil => rfl
  | cons x xs =>
    simp only [heapMinElem] at hm
    rcases hx : heapMinElem xs with _ | y <;> rw [hx] at hm
    · exact absurd hm (by simp)
    · by_cases hc : pairLtb y x = true <;> simp [hc] at hm

/-- The minimum entry of a positive-denominator heap belongs to it and
is below every entry in the realised order. -/
theorem heapMinElem_minimal : ∀ (h : List (PRat × String)),
    (∀ e ∈ h, 0 < e.1.den) → ∀ m, heapMinElem h = some m →
    m ∈ h ∧ ∀ x ∈ h, pairRLe m x := by
  intro h
  induction h with
  | nil => intro _ m hm; simp [heapMinElem] at hm
  | cons x xs ih =>
    intro hpos m hm
    simp only [heapMinElem] at hm
    rcases hx : heapMinElem xs with _ | y <;> rw [hx] at hm
    · have hxs : xs = [] := heapMinElem_eq_none xs hx
      subst hxs
      simp only [Option.some.injEq] at hm
      subst hm
      exact ⟨List.mem_singleton_self x, by
        intro z hz
        rw [List.mem_singleton] at hz
        subst hz
        exact pairRLe_refl _⟩
    · have hposxs : ∀ e ∈ xs, 0 < e.1.den := fun e he => hpos e (List.mem_cons_of_mem x he)
      obtain ⟨hymem, hymin⟩ := ih hposxs y hx
      have hposx : 0 < x.1.den := hpos x (List.mem_cons_self x xs)
      have hposy : 0 < y.1.den := hposxs y hymem
      by_cases hc : pairLtb y x = true
      · simp only [if_pos hc, Option.some.injEq] at hm
        subst hm
        refine ⟨List.mem_cons_of_mem x hymem, ?_⟩
        intro z hz
        rcases List.mem_cons.mp hz with hz | hz
        · subst hz
          exact pairRLe_of_ltb hposy hposx hc
        · exact hymin z hz
      · simp only [if_neg hc, Option.some.injEq] at hm
        subst hm
        refine ⟨List.mem_cons_self x xs, ?_⟩
        intro z hz
        rcases List.mem_cons.mp hz with hz | hz
        · subst hz
          exact pairRLe_refl _
        · exact pairRLe_trans
            (pairRLe_of_not_ltb hposx hposy (Bool.not_eq_true _ ▸ hc)) (hymin z hz)

/-- C5 (counterexample): heap ties are not broken by insertion order.
In `exTie`, placing `P` pushes `T_B` and then `T_A` with equal
priorities, yet the engine pops and places `T_A` first: the final
schedule order is `P, T_A, T_B` although `T_B` entered the heap
first. -/
theorem C5_counterexample :
    exTieStep1.ready.map (fun e => e.2) = ["T_B", "T_A"]
    ∧ calculate_task_priority exTie exTie.tasks exTieStep1.sched (priorityFuel exTie.tasks) "T_A"
        = calculate_task_priority exTie exTie.tasks exTieStep1.sched (priorityFuel exTie.tasks)
            "T_B"
    ∧ (schedule_tasks exTie).sched.map (fun kr => kr.1) = ["P", "T_A", "T_B"] := by
  exact ⟨by decide, by decide, by decide⟩

/-- C5 (amended): within a run the ready heap pops the entry that is
minimal in the realised tuple order: strictly lowest priority value
first and, among entries of equal priority value, the lexicographically
smallest task id — not the earliest inserted.  (The positive-denominator
hypothesis holds for every priority the engine computes.) -/
theorem C5_heap_ties_broken_by_task_id (h : List (PRat × String)) (p : PRat) (tid : String)
    (rest : List (PRat × String))
    (hpos : ∀ e ∈ h, 0 < e.1.den)
    (hpop : heapPopMin h = some ((p, tid), rest)) :
    popMinimal h p tid := by
  simp only [heapPopMin] at hpop
  rcases hx : heapMinElem h with _ | m <;> rw [hx] at hpop
  · exact absurd hpop (by simp)
  · simp only [Option.some.injEq, Prod.mk.injEq] at hpop
    obtain ⟨hm, -⟩ := hpop
    subst hm
    obtain ⟨hmem, hmin⟩ := heapMinElem_minimal h hpos (p, tid) hx
    exact ⟨hmem, fun q tid2 hq => hmin (q, tid2) hq⟩

/-- Witness for C5: on the concrete two-entry heap holding `T_B` (first
inserted) and `T_A` at equal priority 5, the pop returns `T_A` and it
is minimal. -/
theorem C5_witness :
    popMinimal [((⟨5, 1⟩ : PRat), "T_B"), ((⟨5, 1⟩ : PRat), "T_A")] (⟨5, 1⟩ : PRat) "T_A" :=
  C5_heap_ties_broken_by_task_id _ _ _ [((⟨5, 1⟩ : PRat), "T_B")]
    (by intro e he; fin_cases he <;> decide) (by decide)

/-! ## Claim C2: the resource ledger query -/

/-- Rounding up to the next quarter hour never moves a time backwards. -/
theorem roundUpQuarter_ge (t : Int) : t ≤ roundUpQuarter t := by
  have h : roundUpQuarter t =
      if t % 60 % 15 != 0 then
        if 60 ≤ (t % 60 / 15 + 1) * 15 then (t - t % 60) + 60
        else (t - t % 60) + (t % 60 / 15 + 1) * 15
      else t := rfl
  rw [h]
  split
  · split <;> omega
  · omega

/-- What a successful `tryShift` guarantees: the returned shift is the
probed one, the slot starts no earlier than the query time, the
remaining capacity covers the request over the whole task window, and
the task lies inside the shift window. -/
theorem tryShift_sound {s : Scheduler} {sched : List (String × SchedRecord)}
    {current_time : Int} {team : String} {mech dur cap : Nat} {isq isc : Bool}
    {da : Nat} {cd : Int} {sh2 : String} {stt : Int} {sh : String}
    (h : tryShift s sched current_time team mech dur cap isq isc da cd sh2
      = some (stt, sh)) :
    sh = sh2
    ∧ current_time ≤ stt
    ∧ (mech : Int) ≤ (cap : Int)
        - (overlapConflicts sched team isq isc stt (stt + (dur : Int)) : Int)
    ∧ ∃ ws we, shiftWindow s current_time da cd sh2 = some (ws, we)
        ∧ ws ≤ stt ∧ stt + (dur : Int) ≤ we := by
  unfold tryShift at h
  rcases hw : shiftWindow s current_time da cd sh2 with _ | ⟨ws, we⟩ <;> rw [hw] at h
  · simp at h
  · simp only at h
    split at h
    · simp at h
    · split at h
      · simp at h
      · split at h
        case isTrue hend hfit hcap =>
          simp only [Option.some.injEq, Prod.mk.injEq] at h
          obtain ⟨h1, h2⟩ := h
          subst h1
          subst h2
          have hge : current_time ≤ roundUpQuarter (max ws current_time) :=
            le_trans (le_max_right ws current_time) (roundUpQuarter_ge _)
          have hws : ws ≤ roundUpQuarter (max ws current_time) :=
            le_trans (le_max_left ws current_time) (roundUpQuarter_ge _)
          refine ⟨rfl, hge, hcap, ws, we, rfl, hws, ?_⟩
          omega
        case isFalse => simp at h

/-- What a successful `get_next_working_time_with_capacity` guarantees:
the slot starts no earlier than the query time, capacity minus the
conflict load over the task window covers the request, and the task
fits inside the returned shift's window on one of the searched days. -/
theorem get_next_sound {s : Scheduler} {sched : List (String × SchedRecord)}
    {current_time : Int} {product_line : Option String} {team : String}
    {mech dur : Nat} {isq isc : Bool} {stt : Int} {sh : String}
    (h : get_next_working_time_with_capacity s sched current_time product_line team
      mech dur isq isc = some (stt, sh)) :
    current_time ≤ stt
    ∧ (mech : Int) ≤ (capacityForTeam s team isq isc : Int)
        - (overlapConflicts sched team isq isc stt (stt + (dur : Int)) : Int)
    ∧ fits_within_shift s current_time stt dur sh := by
  unfold get_next_working_time_with_capacity at h
  dsimp only at h
  split at h
  · simp at h
  · obtain ⟨da, hda, hsome⟩ := List.exists_of_findSome?_eq_some h
    rw [List.mem_range] at hda
    split at hsome
    · simp at hsome
    · obtain ⟨sh2, hsh2, htry⟩ := List.exists_of_findSome?_eq_some hsome
      obtain ⟨hsheq, hge, hcap, ws, we, hwin, hws, hfit⟩ := tryShift_sound htry
      subst hsheq
      exact ⟨hge, hcap, da, hda, ws, we, hwin, hws, hfit⟩

/-- C2: whenever the earliest-feasible query returns a `(start, shift)`
pair, the task window `[start, start + duration)` lies within that
shift's window on one of the searched days; and when no day/shift
candidate within the 30-day horizon admits the task, the query returns
`(None, None)`. -/
theorem C2_slot_fits_or_bottom (s : Scheduler) (sched : List (String × SchedRecord))
    (current_time : Int) (product_line : Option String) (team : String)
    (mechanics_needed duration : Nat) (is_quality is_customer : Bool) :
    (∀ slot_start shift,
      get_next_working_time_with_capacity s sched current_time product_line team
          mechanics_needed duration is_quality is_customer = some (slot_start, shift) →
      fits_within_shift s current_time slot_start duration shift)
    ∧ ((∀ days_ahead : Nat, days_ahead < 30 →
          ∀ shift ∈ shiftsForTeam s team is_quality is_customer,
          tryShift s sched current_time team mechanics_needed duration
            (capacityForTeam s team is_quality is_customer) is_quality is_customer days_ahead
            ((current_time + (days_ahead : Int) * 1440) / 1440) shift = none) →
        get_next_working_time_with_capacity s sched current_time product_line team
          mechanics_needed duration is_quality is_customer = none) := by
  constructor
  · intro slot_start shift h
    exact (get_next_sound h).2.2
  · intro hall
    unfold get_next_working_time_with_capacity
    dsimp only
    split
    · rfl
    · rw [List.findSome?_eq_none_iff]
      intro da hda
      split
      · rfl
      · rw [List.findSome?_eq_none_iff]
        intro sh hsh
        exact hall da (List.mem_range.mp hda) sh hsh

/-- Witness for C2: the concrete query of `exLate` at the engine datum
returns 06:00 on day 4 in the 1st shift, and the 60-minute task fits
inside that shift window. -/
theorem C2_witness : fits_within_shift exLate 6120 6120 60 "1st" :=
  (C2_slot_fits_or_bottom exLate [] 6120 (some "P") "Mechanic Team 1" 1 60 false false).1
    6120 "1st" (by decide)

/-! ## Claim C1: per-instant capacity invariant -/

/-- A single conflict step never decreases the count. -/
theorem conflictStep_le (team : String) (isq isc : Bool) (winS winE : Int)
    (a : Nat) (kr : String × SchedRecord) :
    a ≤ conflictStep team isq isc winS winE a kr := by
  unfold conflictStep
  dsimp only
  cases isc
  · rw [if_neg Bool.false_ne_true]
    split <;> omega
  · rw [if_pos rfl]
    split <;> omega

/-- A record loading the team at an instant of the window is counted in
full by the conflict step. -/
theorem conflictStep_counts (team : String) (isq isc : Bool) (winS winE t : Int)
    (h1 : winS ≤ t) (h2 : t < winE) (a : Nat) (kr : String × SchedRecord)
    (hteam : (kr.2.team_skill == team) = true)
    (hst : kr.2.start_time ≤ t) (hen : t < kr.2.end_time) :
    a + kr.2.mechanics_required ≤ conflictStep team isq isc winS winE a kr := by
  unfold conflictStep
  dsimp only
  have hc1 : decide (kr.2.start_time < winE) = true := decide_eq_true (by omega)
  have hc2 : decide (winS < kr.2.end_time) = true := decide_eq_true (by omega)
  cases isc
  · rw [if_neg Bool.false_ne_true]
    simp [hteam, hc1, hc2]
  · rw [if_pos rfl]
    simp [hteam, hc1, hc2]

/-- The instant load on a team never exceeds the conflict count of any
window containing the instant: every record counted by `teamLoadAt`
satisfies the overlap test of the conflict loop, whose team condition
is weaker. -/
theorem load_le_conflicts_aux (team : String) (isq isc : Bool) (winS winE t : Int)
    (h1 : winS ≤ t) (h2 : t < winE) :
    ∀ (sched : List (String × SchedRecord)) (a : Nat),
      a + teamLoadAt sched team t
        ≤ List.foldl (conflictStep team isq isc winS winE) a sched := by
  intro sched
  induction sched with
  | nil =>
    intro a
    simp [teamLoadAt]
  | cons kr rest ih =>
    intro a
    rw [List.foldl_cons]
    have hload : teamLoadAt (kr :: rest) team t
        = (if kr.2.team_skill == team && decide (kr.2.start_time ≤ t)
              && decide (t < kr.2.end_time)
           then kr.2.mechanics_required else 0) + teamLoadAt rest team t := by
      simp [teamLoadAt]
    rw [hload]
    have hstep : a + (if kr.2.team_skill == team && decide (kr.2.start_time ≤ t)
          && decide (t < kr.2.end_time) then kr.2.mechanics_required else 0)
        ≤ conflictStep team isq isc winS winE a kr := by
      by_cases hc : (kr.2.team_skill == team && decide (kr.2.start_time ≤ t)
          && decide (t < kr.2.end_time)) = true
      · rw [if_pos hc]
        simp only [Bool.and_eq_true, decide_eq_true_eq] at hc
        exact conflictStep_counts team isq isc winS winE t h1 h2 a kr hc.1.1 hc.1.2 hc.2
      · rw [if_neg hc]
        simpa using conflictStep_le team isq isc winS winE a kr
    calc a + ((if kr.2.team_skill == team && decide (kr.2.start_time ≤ t)
            && decide (t < kr.2.end_time) then kr.2.mechanics_required else 0)
          + teamLoadAt rest team t)
        = (a + (if kr.2.team_skill == team && decide (kr.2.start_time ≤ t)
            && decide (t < kr.2.end_time) then kr.2.mechanics_required else 0))
          + teamLoadAt rest team t := by omega
      _ ≤ _ := le_trans (Nat.add_le_add_right hstep _) (ih _)

/-- The per-instant team load is bounded by the conflict count of any
window containing the instant. -/
theorem teamLoadAt_le_overlapConflicts (sched : List (String × SchedRecord))
    (team : String) (isq isc : Bool) (winS winE t : Int)
    (h1 : winS ≤ t) (h2 : t < winE) :
    teamLoadAt sched team t ≤ overlapConflicts sched team isq isc winS winE := by
  have h := load_le_conflicts_aux team isq isc winS winE t h1 h2 sched 0
  simpa [overlapConflicts] using h

/-- Every branch of the capacity lookup stays below the maximal
capacity any ledger grants the team. -/
theorem capacityForTeam_le_bound (s : Scheduler) (team : String) (isq isc : Bool) :
    capacityForTeam s team isq isc ≤ teamCapacityBound s team := by
  unfold capacityForTeam teamCapacityBound
  cases isc
  · cases isq
    · rw [if_neg Bool.false_ne_true, if_neg Bool.false_ne_true]
      omega
    · rw [if_neg Bool.false_ne_true, if_pos rfl]
      omega
  · rw [if_pos rfl]
    omega

/-- Appending a record that passed the engine's capacity check keeps
the per-instant invariant. -/
theorem SchedInv_insert (s : Scheduler) (sched : List (String × SchedRecord))
    (tid : String) (r : SchedRecord)
    (hinv : SchedInv s sched)
    (hend : r.end_time = r.start_time + (r.duration : Int))
    (hcap : ∃ isq isc, (r.mechanics_required : Int)
        ≤ (capacityForTeam s r.team_skill isq isc : Int)
          - (overlapConflicts sched r.team_skill isq isc r.start_time
              (r.start_time + (r.duration : Int)) : Int)) :
    SchedInv s (sched ++ [(tid, r)]) := by
  intro team t
  have hsplit : teamLoadAt (sched ++ [(tid, r)]) team t
      = teamLoadAt sched team t + teamLoadAt [(tid, r)] team t := by
    simp [teamLoadAt]
  rw [hsplit]
  by_cases hteam : (r.team_skill == team) = true
  · have hteq : r.team_skill = team := eq_of_beq hteam
    by_cases hint : r.start_time ≤ t ∧ t < r.end_time
    · have hone : teamLoadAt [(tid, r)] team t = r.mechanics_required := by
        unfold teamLoadAt
        simp only [List.map_cons, List.map_nil, List.sum_cons, List.sum_nil]
        rw [if_pos]
        · omega
        · simp [hteam, hint.1, hint.2]
      rw [hone]
      obtain ⟨isq, isc, hc⟩ := hcap
      rw [hteq] at hc
      have hload : teamLoadAt sched team t
          ≤ overlapConflicts sched team isq isc r.start_time
              (r.start_time + (r.duration : Int)) := by
        refine teamLoadAt_le_overlapConflicts sched team isq isc _ _ t hint.1 ?_
        have := hint.2
        omega
      have hcapb := capacityForTeam_le_bound s team isq isc
      omega
    · have hzero : teamLoadAt [(tid, r)] team t = 0 := by
        unfold teamLoadAt
        simp only [List.map_cons, List.map_nil, List.sum_cons, List.sum_nil]
        rw [if_neg]
        · omega
        · rcases not_and_or.mp hint with hint | hint
          · simp [hint]
          · simp [hint]
      rw [hzero]
      simpa using hinv team t
  · have hzero : teamLoadAt [(tid, r)] team t = 0 := by
      unfold teamLoadAt
      simp only [List.map_cons, List.map_nil, List.sum_cons, List.sum_nil]
      rw [if_neg]
      · omega
      · simp [hteam]
    rw [hzero]
    simpa using hinv team t

/-- The shared retry helper leaves the schedule dict unchanged. -/
theorem noSlotRetry_sched (st : LoopState) (tid : String) (priority : PRat) :
    (noSlotRetry st tid priority).sched = st.sched := by
  unfold noSlotRetry
  dsimp only
  split <;> rfl

/-- A fold whose step preserves the schedule dict preserves it
globally. -/
theorem foldl_sched_invariant (f : LoopState → Constraint → LoopState)
    (hf : ∀ st c, (f st c).sched = st.sched) :
    ∀ (cs : List Constraint) (st : LoopState), (cs.foldl f st).sched = st.sched := by
  intro cs
  induction cs with
  | nil => intro st; rfl
  | cons c rest ih =>
    intro st
    rw [List.foldl_cons, ih, hf]

/-- `placeTask` either drops the task (far-future failure) or appends
exactly the record of lines 1834-1848. -/
theorem placeTask_sched (s : Scheduler) (st : LoopState) (tid : String) (ti : TaskInfo)
    (stt : Int) (sh tf bf : String) :
    (placeTask s st tid ti stt sh tf bf).sched = st.sched
    ∨ (placeTask s st tid ti stt sh tf bf).sched
        = st.sched ++ [(tid, placeRecord s tid ti stt sh tf bf)] := by
  unfold placeTask
  split
  · exact Or.inl rfl
  · right
    rw [foldl_sched_invariant]
    intro st2 c
    dsimp only
    split
    · rfl
    · split <;> rfl

/-- Whatever the customer-team fold returns came from a successful
ledger query for that team. -/
theorem bestCustomerSlot_sound (s : Scheduler) (sched : List (String × SchedRecord))
    (earliest_start : Int) (product_line : Option String) (mech dur : Nat)
    (team : String) (stt : Int) (sh : String)
    (h : bestCustomerSlot s sched earliest_start product_line mech dur
      = some (team, stt, sh)) :
    get_next_working_time_with_capacity s sched earliest_start product_line team mech dur
      false true = some (stt, sh) := by
  unfold bestCustomerSlot at h
  suffices hgen : ∀ (l : List (String × Nat)) (acc : Option (String × Int × String)),
      (∀ t2 st2 sh2, acc = some (t2, st2, sh2) →
        get_next_working_time_with_capacity s sched earliest_start product_line t2 mech dur
          false true = some (st2, sh2)) →
      (∀ t2 st2 sh2,
        l.foldl (fun (acc : Option (String × Int × String)) tc =>
          if mech ≤ tc.2 then
            match get_next_working_time_with_capacity s sched earliest_start product_line tc.1
                mech dur false true with
            | some (slot_start, slot_shift) =>
              match acc with
              | none => some (tc.1, slot_start, slot_shift)
              | some (_, best_start, _) =>
                if slot_start < best_start then some (tc.1, slot_start, slot_shift) else acc
            | none => acc
          else acc) acc = some (t2, st2, sh2) →
        get_next_working_time_with_capacity s sched earliest_start product_line t2 mech dur
          false true = some (st2, sh2)) by
    exact hgen s.customer_team_capacity none (by intro t2 st2 sh2 hx; cases hx) team stt sh h
  intro l
  induction l with
  | nil =>
    intro acc hacc t2 st2 sh2 hfold
    exact hacc t2 st2 sh2 hfold
  | cons tc rest ih =>
    intro acc hacc t2 st2 sh2 hfold
    rw [List.foldl_cons] at hfold
    refine ih _ ?_ t2 st2 sh2 hfold
    intro t3 st3 sh3 hstep
    by_cases hcap : mech ≤ tc.2
    · rw [if_pos hcap] at hstep
      rcases hg : get_next_working_time_with_capacity s sched earliest_start product_line tc.1
          mech dur false true with _ | ⟨gs, gh⟩ <;> rw [hg] at hstep
      · exact hacc t3 st3 sh3 hstep
      · rcases hacc2 : acc with _ | ⟨t4, st4, sh4⟩ <;> rw [hacc2] at hstep
        · simp only [Option.some.injEq, Prod.mk.injEq] at hstep
          obtain ⟨h1, h2, h3⟩ := hstep
          subst h1
          subst h2
          subst h3
          exact hg
        · dsimp only at hstep
          by_cases hlt : gs < st4
          · rw [if_pos hlt] at hstep
            simp only [Option.some.injEq, Prod.mk.injEq] at hstep
            obtain ⟨h1, h2, h3⟩ := hstep
            subst h1
            subst h2
            subst h3
            exact hg
          · rw [if_neg hlt] at hstep
            exact hacc t3 st3 sh3 (hacc2.trans hstep)
    · rw [if_neg hcap] at hstep
      exact hacc t3 st3 sh3 hstep

/-- The record a placement appends satisfies the capacity check and the
earliest-start bound certified by the ledger query that produced it. -/
theorem placeTask_cases_spec (s : Scheduler) (st : LoopState) (tid : String) (ti : TaskInfo)
    (stt : Int) (sh tf bf : String) (isq0 isc0 : Bool) (pl : Option String)
    (hg : get_next_working_time_with_capacity s st.sched
        (computeEarliestStart s st.sched tid ti.duration) pl tf ti.mechanics_required
        ti.duration isq0 isc0 = some (stt, sh)) :
    (placeTask s st tid ti stt sh tf bf).sched = st.sched
    ∨ ∃ tid2 r, (placeTask s st tid ti stt sh tf bf).sched = st.sched ++ [(tid2, r)]
        ∧ r.end_time = r.start_time + (r.duration : Int)
        ∧ (∃ isq isc, (r.mechanics_required : Int)
            ≤ (capacityForTeam s r.team_skill isq isc : Int)
              - (overlapConflicts st.sched r.team_skill isq isc r.start_time
                  (r.start_time + (r.duration : Int)) : Int))
        ∧ computeEarliestStart s st.sched tid2 r.duration ≤ r.start_time := by
  rcases placeTask_sched s st tid ti stt sh tf bf with hc | hc
  · exact Or.inl hc
  · right
    refine ⟨tid, placeRecord s tid ti stt sh tf bf, hc, rfl, ⟨isq0, isc0, ?_⟩, ?_⟩
    · have h2 := (get_next_sound hg).2.1
      simpa [placeRecord] using h2
    · have h1 := (get_next_sound hg).1
      simpa [placeRecord] using h1

/-- One engine iteration either leaves the schedule dict unchanged or
appends a single record that passed the capacity check against the
previous dict and starts no earlier than its constraint-implied
earliest start. -/
theorem scheduleStep_sched_cases (s : Scheduler) (st : LoopState) :
    (scheduleStep s st).sched = st.sched
    ∨ ∃ tid r, (scheduleStep s st).sched = st.sched ++ [(tid, r)]
        ∧ r.end_time = r.start_time + (r.duration : Int)
        ∧ (∃ isq isc, (r.mechanics_required : Int)
            ≤ (capacityForTeam s r.team_skill isq isc : Int)
              - (overlapConflicts st.sched r.team_skill isq isc r.start_time
                  (r.start_time + (r.duration : Int)) : Int))
        ∧ computeEarliestStart s st.sched tid r.duration ≤ r.start_time := by
  unfold scheduleStep
  rcases hpop : heapPopMin st.ready with _ | ⟨⟨priority, tid⟩, rest⟩
  · exact Or.inl rfl
  · dsimp only
    split
    · split
      · exact Or.inl rfl
      · exact Or.inl rfl
    · rcases hti : alookup st.tasks tid with _ | ti
      · exact Or.inl rfl
      · dsimp only
        split
        · rcases hb : bestCustomerSlot s st.sched
              (computeEarliestStart s st.sched tid ti.duration)
              (some (ti.product.getD "Unknown")) ti.mechanics_required ti.duration
            with _ | ⟨bt, bs, bsh⟩
          · exact Or.inl (noSlotRetry_sched _ _ _)
          · exact placeTask_cases_spec s { st with ready := rest } tid ti bs bsh bt bt false true
              (some (ti.product.getD "Unknown")) (bestCustomerSlot_sound s _ _ _ _ _ _ _ _ hb)
        · split
          · rcases hqt : resolveQualityTeam s st.tasks tid ti with ⟨qopt, tasks2⟩
            rcases qopt with _ | qteam
            · dsimp only
              split <;> exact Or.inl rfl
            · dsimp only
              rcases hg : get_next_working_time_with_capacity s st.sched
                  (computeEarliestStart s st.sched tid ti.duration)
                  (some (ti.product.getD "Unknown")) qteam ti.mechanics_required ti.duration
                  true false with _ | ⟨gs, gh⟩
              · exact Or.inl (noSlotRetry_sched _ _ _)
              · exact placeTask_cases_spec s
                  { st with ready := rest, tasks := tasks2 } tid ti gs gh qteam qteam
                  true false (some (ti.product.getD "Unknown")) hg
          · rcases hg : get_next_working_time_with_capacity s st.sched
                (computeEarliestStart s st.sched tid ti.duration)
                (some (ti.product.getD "Unknown")) (ti.team_skill.getD ti.team)
                ti.mechanics_required ti.duration false false with _ | ⟨gs, gh⟩
            · exact Or.inl (noSlotRetry_sched _ _ _)
            · exact placeTask_cases_spec s { st with ready := rest } tid ti gs gh
                (ti.team_skill.getD ti.team)
                (if pyContains "(" (ti.team_skill.getD ti.team)
                    && pyContains ")" (ti.team_skill.getD ti.team) then
                  pyStrip (pySplitFirst " (" (ti.team_skill.getD ti.team))
                else ti.team)
                false false (some (ti.product.getD "Unknown")) hg

/-- The per-instant capacity invariant is preserved by the whole main
loop. -/
theorem scheduleLoop_SchedInv (s : Scheduler) (total : Nat) :
    ∀ (fuel : Nat) (st : LoopState), SchedInv s st.sched
      → SchedInv s (scheduleLoop s total fuel st).sched := by
  intro fuel
  induction fuel with
  | zero => intro st h; exact h
  | succ n ih =>
    intro st h
    unfold scheduleLoop
    split
    · exact h
    · refine ih _ ?_
      rcases scheduleStep_sched_cases s st with hc | ⟨tid, r, heq, hend, hcap, -⟩
      · rw [hc]
        exact h
      · rw [heq]
        exact SchedInv_insert s st.sched tid r h hend hcap

/-- After a full engine run, the capacity invariant holds against the
maximal per-ledger capacities. -/
theorem schedule_tasks_SchedInv (s : Scheduler) : SchedInv s (schedule_tasks s).sched := by
  unfold schedule_tasks
  apply scheduleLoop_SchedInv
  intro team t
  simp [initialLoopState, teamLoadAt]

/-- A successful lookup exhibits a binding in the list. -/
theorem alookup_mem {α : Type} (m : List (String × α)) (k : String) (v : α)
    (h : alookup m k = some v) : ∃ p ∈ m, p.1 = k ∧ p.2 = v := by
  induction m with
  | nil => simp [alookup] at h
  | cons p rest ih =>
    obtain ⟨k2, v2⟩ := p
    by_cases h2 : k2 == k
    · simp only [alookup, h2, if_true, Option.some.injEq] at h
      exact ⟨(k2, v2), List.mem_cons_self _ _, eq_of_beq h2, h⟩
    · simp only [Bool.not_eq_true] at h2
      simp only [alookup, h2, Bool.false_eq_true, if_false] at h
      obtain ⟨q, hq, hqk, hqv⟩ := ih h
      exact ⟨q, List.mem_cons_of_mem _ hq, hqk, hqv⟩

/-- With well-formed (disjoint) team tables, the unique-capacity lookup
agrees with the maximal one. -/
theorem theTeamCapacity_eq_bound (s : Scheduler) (hdisj : capacityMapsDisjoint s = true)
    (team : String) : theTeamCapacity s team = teamCapacityBound s team := by
  unfold capacityMapsDisjoint at hdisj
  simp only [Bool.and_eq_true, List.all_eq_true] at hdisj
  obtain ⟨hmq, hqc⟩ := hdisj
  unfold theTeamCapacity teamCapacityBound
  rcases hm : alookup s.team_capacity team with _ | c
  · rcases hq : alookup s.quality_team_capacity team with _ | c
    · simp
    · obtain ⟨p, hp, hpk, -⟩ := alookup_mem s.quality_team_capacity team c hq
      have := hqc p hp
      rw [hpk] at this
      simp only [Bool.and_eq_true, Option.isNone_iff_eq_none] at this
      simp [this]
  · obtain ⟨p, hp, hpk, -⟩ := alookup_mem s.team_capacity team c hm
    have := hmq p hp
    rw [hpk] at this
    simp only [Bool.and_eq_true, Option.isNone_iff_eq_none] at this
    simp [this.1, this.2]

/-- C1: after any run of the scheduling engine, for every team and
every time instant, the sum of `mechanics_required` over the schedule
records assigned to that team whose `[start_time, end_time)` intervals
contain that instant is at most the team's capacity.  The hypothesis is
the data model's well-formedness condition that a team name appears in
only one of the three capacity tables. -/
theorem C1_capacity_never_exceeded (s : Scheduler)
    (hdisj : capacityMapsDisjoint s = true) : capacityInvariantHolds s := by
  intro team t
  rw [theTeamCapacity_eq_bound s hdisj team]
  exact schedule_tasks_SchedInv s team t

/-- Witness for C1: the invariant holds for the concrete scheduler
`exPin` (two tasks on one five-head mechanic team). -/
theorem C1_witness : capacityInvariantHolds exPin :=
  C1_capacity_never_exceeded exPin (by decide)

/-! ## Claim C8: late-part on-dock lower bound -/

/-- Folding predecessor bounds over constraints none of which is
`Start = Start` never sets the pin and never lowers the earliest
start. -/
theorem earliestStartFold_no_pin (sched : List (String × SchedRecord)) (duration : Nat) :
    ∀ (cs : List Constraint), (∀ c ∈ cs, c.relationship ≠ "Start = Start") →
    ∀ (acc : Int × Option Int), acc.2 = none →
      (cs.foldl (earliestStartFold sched duration) acc).2 = none
      ∧ acc.1 ≤ (cs.foldl (earliestStartFold sched duration) acc).1 := by
  intro cs
  induction cs with
  | nil =>
    intro _ acc h
    exact ⟨h, le_refl _⟩
  | cons c rest ih =>
    intro hall acc hacc
    rw [List.foldl_cons]
    have hne : (c.relationship == "Start = Start") = false :=
      beq_eq_false_iff_ne.mpr (hall c (List.mem_cons_self c rest))
    have hstep2 : (earliestStartFold sched duration acc c).2 = none := by
      unfold earliestStartFold
      rcases alookup sched c.first with _ | fs
      · exact hacc
      · dsimp only
        rw [if_neg (by simp [hne])]
        exact hacc
    have hstep1 : acc.1 ≤ (earliestStartFold sched duration acc c).1 := by
      unfold earliestStartFold
      rcases alookup sched c.first with _ | fs
      · exact le_refl _
      · dsimp only
        rw [if_neg (by simp [hne])]
        exact le_max_left _ _
    obtain ⟨h2, h1⟩ := ih (fun c2 hc2 => hall c2 (List.mem_cons_of_mem c hc2)) _ hstep2
    exact ⟨h2, le_trans hstep1 h1⟩

/-- For a late part with no incoming `Start = Start` constraint, the
computed earliest start is at least the on-dock bound. -/
theorem computeEarliestStart_late_bound (s : Scheduler)
    (sched : List (String × SchedRecord)) (tid : String) (duration : Nat)
    (hlp : s.late_part_tasks.contains tid = true)
    (hnoss : noStartEqStartInto s tid = true) :
    get_earliest_start_for_late_part s tid ≤ computeEarliestStart s sched tid duration := by
  unfold computeEarliestStart
  dsimp only
  rw [if_pos hlp]
  have hall : ∀ c ∈ constraintsBySecond s.constraints tid,
      c.relationship ≠ "Start = Start" := by
    unfold noStartEqStartInto at hnoss
    rw [List.all_eq_true] at hnoss
    intro c hc
    simpa using hnoss c hc
  obtain ⟨h2, h1⟩ := earliestStartFold_no_pin sched duration
    (constraintsBySecond s.constraints tid) hall
    (get_earliest_start_for_late_part s tid, none) rfl
  rw [h2]
  exact h1

/-- The late-part lower bound is preserved by the whole main loop. -/
theorem scheduleLoop_LatePartInv (s : Scheduler) (total : Nat) :
    ∀ (fuel : Nat) (st : LoopState), LatePartInv s st.sched
      → LatePartInv s (scheduleLoop s total fuel st).sched := by
  intro fuel
  induction fuel with
  | zero => intro st h; exact h
  | succ n ih =>
    intro st h
    unfold scheduleLoop
    split
    · exact h
    · refine ih _ ?_
      rcases scheduleStep_sched_cases s st with hc | ⟨tid, r, heq, -, -, hearliest⟩
      · rw [hc]
        exact h
      · rw [heq]
        intro tid2 r2 hmem hlp hnoss
        rcases List.mem_append.mp hmem with hmem | hmem
        · exact h tid2 r2 hmem hlp hnoss
        · rw [List.mem_singleton] at hmem
          injection hmem with h1 h2
          subst h1
          subst h2
          exact le_trans
            (computeEarliestStart_late_bound s st.sched _ _ hlp hnoss)
            hearliest

/-- The schedule produced by a full `schedule_tasks` run satisfies the
late-part invariant. -/
theorem schedule_tasks_LatePartInv (s : Scheduler) : LatePartInv s (schedule_tasks s).sched := by
  unfold schedule_tasks
  apply scheduleLoop_LatePartInv
  intro tid r hmem
  simp [initialLoopState] at hmem

/-- C8 counterexample: in `exPin` the late part `LP_1` carries an
incoming `Start = Start` constraint; the pin overrides the on-dock
bound and the task is placed at 6120, strictly below its bound
`get_earliest_start_for_late_part exPin "LP_1" = 30600`. The claim as
stated, with no proviso about equal-start pins, is therefore false. -/
theorem C8_counterexample :
    exPin.late_part_tasks.contains "LP_1" = true
    ∧ ((schedule_tasks exPin).sched.map
        (fun kr => (kr.1, kr.2.start_time))).contains ("LP_1", 6120) = true
    ∧ (6120 : Int) < get_earliest_start_for_late_part exPin "LP_1" := by
  refine ⟨by decide, ?_, by decide⟩
  decide

/-- C8 (amended): every scheduled late-part instance with no incoming
`Start = Start` constraint starts no earlier than its on-dock date plus
the configured delay, rounded down to 06:00 of the resulting day
(`get_earliest_start_for_late_part`). An equal-start pin from a
predecessor overrides this bound. -/
theorem C8_late_part_bound_unless_pinned (s : Scheduler) (tid : String) (r : SchedRecord)
    (hmem : (tid, r) ∈ (schedule_tasks s).sched)
    (hlp : s.late_part_tasks.contains tid = true)
    (hnoss : noStartEqStartInto s tid = true) :
    get_earliest_start_for_late_part s tid ≤ r.start_time :=
  schedule_tasks_LatePartInv s tid r hmem hlp hnoss

theorem C8_witness :
    ("LP_1", exLateRec) ∈ (schedule_tasks exLate).sched
    ∧ exLate.late_part_tasks.contains "LP_1" = true
    ∧ noStartEqStartInto exLate "LP_1" = true
    ∧ get_earliest_start_for_late_part exLate "LP_1" ≤ exLateRec.start_time :=
  ⟨by decide, by decide, by decide,
    C8_late_part_bound_unless_pinned exLate "LP_1" exLateRec
      (by decide) (by decide) (by decide)⟩
